import Mathlib

/-!
Verification development for the bomkit snapshot-ingestion / diff / classification
core (`src/bomkit/ingest/snapshot_ingest.py`, `src/bomkit/ingest/supabase_client.py`,
`src/bomkit/diff/snapshot_diff.py`, `src/bomkit/diff/change_events.py`).

Modelling conventions:
* Python attribute values (the `Dict[str, Any]` maps) are modelled by the tagged
  union `Value` (string | int | None | list-of-int); attribute maps are
  association lists with unique keys and insertion order, mirroring `dict`.
* UUIDs are abstracted as `Nat` identifiers.
* Python `int` quantities are `Int`; the diff engine's `int|float` quantities and
  the similarity scores (Python `float`) are modelled as exact rationals `ℚ`.
* SHA-256 is implemented bit-faithfully (FIPS 180-4) over the UTF-8 bytes of the
  canonical JSON string, matching `hashlib.sha256(json_str.encode()).hexdigest()`.
* Iteration over Python `set` objects has no specified order; wherever the source
  iterates a set (key unions), the model uses first-occurrence order.  No theorem
  below depends on that choice.
-/

/-- Tagged union for Python values stored in attribute maps:
`None`, `str`, `int`, and `list[int]` (the shape of `row_indices`). -/
inductive Value where
  | vNone : Value
  | vStr (s : String) : Value
  | vInt (n : Int) : Value
  | vList (l : List Int) : Value
deriving DecidableEq, Repr

/-- A Python `dict[str, Any]`: association list in insertion order, keys unique. -/
abbrev AttrMap := List (String × Value)

/-- `d.get(k)` with default `None`: absent keys and stored `None` both give `vNone`,
exactly as in Python where `d.get(k)` returns `None` in both cases. -/
def pyDictGet (m : AttrMap) (k : String) : Value :=
  (m.lookup k).getD .vNone

/-- `k in d` for a Python dict. -/
def pyDictHas (m : AttrMap) (k : String) : Bool :=
  (m.lookup k).isSome

/-- `d[k] = v` on a Python dict: updates in place (keeping position) when the key
exists, appends otherwise. -/
def pyDictSet (m : AttrMap) (k : String) (v : Value) : AttrMap :=
  if (m.lookup k).isSome then m.map (fun p => if p.1 = k then (k, v) else p)
  else m ++ [(k, v)]

/-- Python truthiness of a `Value` (`bool(v)`). -/
def pyTruthy : Value → Bool
  | .vNone => false
  | .vStr s => s ≠ ""
  | .vInt n => n ≠ 0
  | .vList l => l ≠ []

/-- Union of two key lists in first-occurrence order (model of `set(a) | set(b)`). -/
def keyUnion (xs ys : List String) : List String :=
  xs ++ ys.filter (fun k => ¬ xs.contains k)

/-- `NON_SEMANTIC_ATTRIBUTE_KEYS` from `snapshot_ingest.py`: metadata keys excluded
from checksum computation and semantic diffing. -/
def NON_SEMANTIC_ATTRIBUTE_KEYS : List String :=
  ["row_index", "source_row", "raw_row", "normalized_refdes", "original_refdes",
   "csv_row_number", "import_timestamp", "source_file"]

/-- `k not in NON_SEMANTIC_ATTRIBUTE_KEYS` as a boolean predicate. -/
def nonSemanticPred (s : String) : Bool :=
  ¬ NON_SEMANTIC_ATTRIBUTE_KEYS.contains s

/-- `_filter_semantic_attributes`: drop every non-semantic key. -/
def _filter_semantic_attributes (attributes : AttrMap) : AttrMap :=
  attributes.filter (fun kv => nonSemanticPred kv.1)

/-- ASCII whitespace recognized by Python `str.split()` (the unicode whitespace
code points beyond ASCII are not modelled; no claim involves them). -/
def isPySpace (c : Char) : Bool :=
  c = ' ' ∨ c = '\t' ∨ c = '\n' ∨ c = '\r' ∨ c = '\x0b' ∨ c = '\x0c'

/-- Worker for `str.split()`: first argument is the remaining input, second the
(reversed) current word. -/
def pyWordsAux : List Char → List Char → List (List Char)
  | [], cur => if cur.isEmpty then [] else [cur.reverse]
  | c :: rest, cur =>
    if isPySpace c then
      if cur.isEmpty then pyWordsAux rest [] else cur.reverse :: pyWordsAux rest []
    else pyWordsAux rest (c :: cur)

/-- Python `value.split()`: maximal runs of non-whitespace characters. -/
def pySplit (s : String) : List String :=
  (pyWordsAux s.data []).map (fun w => ⟨w⟩)

/-- `_canonicalize_for_checksum`: collapse whitespace in strings
(`' '.join(value.split())`), leave every other value unchanged. -/
def _canonicalize_for_checksum : Value → Value
  | .vStr s => .vStr (String.intercalate " " (pySplit s))
  | v => v

/-- Lowercase hex digit. -/
def hexDigit (n : Nat) : Char :=
  if n < 10 then Char.ofNat (48 + n) else Char.ofNat (87 + n)

/-- Four lowercase hex digits (for `\uXXXX` escapes). -/
def hex4 (n : Nat) : List Char :=
  (List.range 4).map (fun i => hexDigit ((n >>> (4 * (3 - i))) &&& 0xf))

/-- JSON escaping of one character as done by `json.dumps` with its default
`ensure_ascii=True`: short escapes for the usual controls, `\uXXXX` (with
surrogate pairs above the BMP) for every other character outside `0x20..0x7e`. -/
def jsonEscapeChar (c : Char) : List Char :=
  if c = '"' then ['\\', '"']
  else if c = '\\' then ['\\', '\\']
  else if c = '\n' then ['\\', 'n']
  else if c = '\r' then ['\\', 'r']
  else if c = '\t' then ['\\', 't']
  else if c = '\x08' then ['\\', 'b']
  else if c = '\x0c' then ['\\', 'f']
  else if c.toNat < 0x20 ∨ 0x7e < c.toNat then
    if c.toNat < 0x10000 then '\\' :: 'u' :: hex4 c.toNat
    else
      let v := c.toNat - 0x10000
      ('\\' :: 'u' :: hex4 (0xd800 + v / 0x400)) ++ ('\\' :: 'u' :: hex4 (0xdc00 + v % 0x400))
  else [c]

/-- JSON string literal. -/
def jsonStr (s : String) : String :=
  ⟨'"' :: (s.data.flatMap jsonEscapeChar ++ ['"'])⟩

/-- JSON rendering of a `Value` as `json.dumps` renders the Python value. -/
def jsonValue : Value → String
  | .vNone => "null"
  | .vStr s => jsonStr s
  | .vInt n => toString n
  | .vList l => "[" ++ String.intercalate ", " (l.map toString) ++ "]"

/-- Key order used by `json.dumps(..., sort_keys=True)`: codepoint-lexicographic. -/
def keyLe (p q : String × Value) : Prop := p.1 ≤ q.1

instance : DecidableRel keyLe := fun p q => inferInstanceAs (Decidable (p.1 ≤ q.1))

instance : IsTotal (String × Value) keyLe := ⟨fun a b => le_total a.1 b.1⟩

instance : IsTrans (String × Value) keyLe := ⟨fun _ _ _ h1 h2 => le_trans h1 h2⟩

/-- Strict key order; antisymmetric (vacuously), used for uniqueness of the
sorted serialization on duplicate-free key sets. -/
def keyLt (p q : String × Value) : Prop := p.1 < q.1

instance : IsAntisymm (String × Value) keyLt :=
  ⟨fun _ _ h1 h2 => absurd (lt_trans h1 h2) (lt_irrefl _)⟩

/-- Sort an attribute map by key (the `sort_keys=True` serialization order). -/
def sortByKey (m : AttrMap) : AttrMap :=
  List.insertionSort keyLe m

/-- Two values differ at most by whitespace inside strings: equal word lists
for a pair of strings (`str.split()`), plain equality otherwise. -/
def wsValEq (v w : Value) : Prop :=
  match v, w with
  | .vStr s, .vStr t => pySplit s = pySplit t
  | v, w => v = w

/-- Pointwise whitespace-equivalence of attribute entries: same key,
whitespace-equivalent value. -/
def wsKvEq (kv kv' : String × Value) : Prop :=
  kv.1 = kv'.1 ∧ wsValEq kv.2 kv'.2

/-- Value update at one key (`{**a, k: v}` applied at matching entries),
modelling "changing the value stored under key `k`". -/
def setKeyValue (m : AttrMap) (k : String) (v : Value) : AttrMap :=
  m.map (fun kv => if kv.1 = k then (kv.1, v) else kv)

/-- Entry removal at one key, modelling "removing key `k`". -/
def removeKey (m : AttrMap) (k : String) : AttrMap :=
  m.filter (fun kv => kv.1 ≠ k)

/-- JSON object with the given pairs in the given order, with `json.dumps`'s
default separators `", "` and `": "`. -/
def jsonObj (pairs : AttrMap) : String :=
  "\x7b" ++ String.intercalate ", "
    (pairs.map (fun kv => jsonStr kv.1 ++ ": " ++ jsonValue kv.2)) ++ "\x7d"

/-- `json.dumps(None | int)` for the quantity slot. -/
def jsonOptInt : Option Int → String
  | none => "null"
  | some n => toString n

/-! ### SHA-256 (FIPS 180-4), over Nat words reduced mod 2^32 -/

def u32 : Nat := 4294967296

def add32 (a b : Nat) : Nat := (a + b) % u32

def rotr32 (x n : Nat) : Nat := ((x >>> n) ||| (x <<< (32 - n))) % u32

def sha256K : List Nat :=
  [1116352408, 1899447441, 3049323471, 3921009573, 961987163, 1508970993,
   2453635748, 2870763221, 3624381080, 310598401, 607225278, 1426881987,
   1925078388, 2162078206, 2614888103, 3248222580, 3835390401, 4022224774,
   264347078, 604807628, 770255983, 1249150122, 1555081692, 1996064986,
   2554220882, 2821834349, 2952996808, 3210313671, 3336571891, 3584528711,
   113926993, 338241895, 666307205, 773529912, 1294757372, 1396182291,
   1695183700, 1986661051, 2177026350, 2456956037, 2730485921, 2820302411,
   3259730800, 3345764771, 3516065817, 3600352804, 4094571909, 275423344,
   430227734, 506948616, 659060556, 883997877, 958139571, 1322822218,
   1537002063, 1747873779, 1955562222, 2024104815, 2227730452, 2361852424,
   2428436474, 2756734187, 3204031479, 3329325298]

/-- UTF-8 encoding of one code point. -/
def utf8EncodeChar (c : Char) : List Nat :=
  let n := c.toNat
  if n < 0x80 then [n]
  else if n < 0x800 then [0xc0 ||| (n >>> 6), 0x80 ||| (n &&& 0x3f)]
  else if n < 0x10000 then
    [0xe0 ||| (n >>> 12), 0x80 ||| ((n >>> 6) &&& 0x3f), 0x80 ||| (n &&& 0x3f)]
  else
    [0xf0 ||| (n >>> 18), 0x80 ||| ((n >>> 12) &&& 0x3f),
     0x80 ||| ((n >>> 6) &&& 0x3f), 0x80 ||| (n &&& 0x3f)]

/-- `s.encode('utf-8')` as a byte list. -/
def utf8Bytes (s : String) : List Nat := s.data.flatMap utf8EncodeChar

/-- Big-endian bytes of `x`, `w` bytes wide. -/
def beBytes (w x : Nat) : List Nat :=
  (List.range w).map (fun i => (x >>> (8 * (w - 1 - i))) &&& 0xff)

def sha256Pad (msg : List Nat) : List Nat :=
  let l := msg.length
  let padLen := (55 + 64 - l % 64) % 64 + 1
  msg ++ (0x80 :: List.replicate (padLen - 1) 0) ++ beBytes 8 (8 * l)

def chunks64 (l : List Nat) : List (List Nat) :=
  (List.range (l.length / 64)).map (fun i => (l.drop (64 * i)).take 64)

def word32At (block : List Nat) (i : Nat) : Nat :=
  (block.getD (4*i) 0) <<< 24 ||| (block.getD (4*i+1) 0) <<< 16 |||
  (block.getD (4*i+2) 0) <<< 8 ||| (block.getD (4*i+3) 0)

def smallSigma0 (x : Nat) : Nat := (rotr32 x 7) ^^^ (rotr32 x 18) ^^^ (x >>> 3)
def smallSigma1 (x : Nat) : Nat := (rotr32 x 17) ^^^ (rotr32 x 19) ^^^ (x >>> 10)
def bigSigma0 (x : Nat) : Nat := (rotr32 x 2) ^^^ (rotr32 x 13) ^^^ (rotr32 x 22)
def bigSigma1 (x : Nat) : Nat := (rotr32 x 6) ^^^ (rotr32 x 11) ^^^ (rotr32 x 25)

def msgSchedule (block : List Nat) : List Nat :=
  (List.range 48).foldl
    (fun w _ =>
      let i := w.length
      let wi := (smallSigma1 (w.getD (i-2) 0) + w.getD (i-7) 0 +
                 smallSigma0 (w.getD (i-15) 0) + w.getD (i-16) 0) % u32
      w ++ [wi])
    ((List.range 16).map (word32At block))

def sha256Round (st : Nat × Nat × Nat × Nat × Nat × Nat × Nat × Nat) (kw : Nat × Nat) :
    Nat × Nat × Nat × Nat × Nat × Nat × Nat × Nat :=
  let (a, b, c, d, e, f, g, h) := st
  let (k, w) := kw
  let ch := (e &&& f) ^^^ ((u32 - 1 - e) &&& g)
  let t1 := (h + bigSigma1 e + ch + k + w) % u32
  let maj := (a &&& b) ^^^ (a &&& c) ^^^ (b &&& c)
  let t2 := (bigSigma0 a + maj) % u32
  ((t1 + t2) % u32, a, b, c, (d + t1) % u32, e, f, g)

def sha256Compress (h : List Nat) (block : List Nat) : List Nat :=
  let w := msgSchedule block
  let init := (h.getD 0 0, h.getD 1 0, h.getD 2 0, h.getD 3 0,
               h.getD 4 0, h.getD 5 0, h.getD 6 0, h.getD 7 0)
  let (a, b, c, d, e, f, g, hh) := (sha256K.zip w).foldl sha256Round init
  [add32 (h.getD 0 0) a, add32 (h.getD 1 0) b, add32 (h.getD 2 0) c, add32 (h.getD 3 0) d,
   add32 (h.getD 4 0) e, add32 (h.getD 5 0) f, add32 (h.getD 6 0) g, add32 (h.getD 7 0) hh]

def sha256Init : List Nat :=
  [1779033703, 3144134277, 1013904242, 2773480762, 1359893119, 2600822924,
   528734635, 1541459225]

def hex32 (x : Nat) : List Char :=
  (List.range 8).map (fun i => hexDigit ((x >>> (4 * (7 - i))) &&& 0xf))

/-- `hashlib.sha256(s.encode('utf-8')).hexdigest()`. -/
def sha256hex (s : String) : String :=
  let final := (chunks64 (sha256Pad (utf8Bytes s))).foldl sha256Compress sha256Init
  ⟨final.flatMap hex32⟩

/-- The value-canonicalization pass of `_compute_checksum`
(`{k: _canonicalize_for_checksum(v) for k, v in semantic_attrs.items()}`). -/
def canonicalizeAttrs (m : AttrMap) : AttrMap :=
  m.map (fun kv => (kv.1, _canonicalize_for_checksum kv.2))

/-- The canonical JSON string hashed by `_compute_checksum`:
`json.dumps({"quantity": quantity, "attributes": canonical_attrs}, sort_keys=True)`.
With `sort_keys=True` the outer keys serialize in the order
`"attributes"`, `"quantity"`, and the attribute object's keys sort
codepoint-lexicographically. -/
def checksumPayload (quantity : Option Int) (canonical_attrs : AttrMap) : String :=
  "\x7b\"attributes\": " ++ jsonObj (sortByKey canonical_attrs) ++
  ", \"quantity\": " ++ jsonOptInt quantity ++ "\x7d"

/-- `_compute_checksum` from `snapshot_ingest.py`: filter non-semantic keys,
canonicalize values, serialize with sorted keys, SHA-256 the UTF-8 bytes. -/
def _compute_checksum (quantity : Option Int) (attributes : AttrMap) : String :=
  sha256hex (checksumPayload quantity
    (canonicalizeAttrs (_filter_semantic_attributes attributes)))

/-! ### Snapshot diff engine (`snapshot_diff.py`) -/

/-- Values carried by a `FieldChange`: the quantity slots hold
`float(quantity)`/`None` (modelled as `Option ℚ`), the attribute slots hold the
raw attribute values (with `vNone` standing for Python `None`). -/
inductive FCVal where
  | num (q : Option ℚ) : FCVal
  | val (v : Value) : FCVal
deriving DecidableEq, Repr

/-- `FieldChange` from `snapshot_diff.py`. -/
structure FieldChange where
  type : String
  field : Option String
  from_value : FCVal
  to_value : FCVal
deriving DecidableEq, Repr

/-- `SnapshotItemState`: one bom_item's materialized state in one snapshot.
The diff engine reads quantities back from the store as `int|float`; both are
modelled as `ℚ`.  The checksum is the stored string (the diff engine never
recomputes it). -/
structure SnapshotItemState where
  bom_item_id : Nat
  quantity : Option ℚ
  attributes : AttrMap
  checksum : String
  part_id : Option Nat
deriving DecidableEq, Repr

def dummyItemState : SnapshotItemState := ⟨0, none, [], "", none⟩

instance : Inhabited SnapshotItemState := ⟨dummyItemState⟩

/-- `diff_snapshot_item`: quantity compared first, then the union of semantic
attribute keys, emitting ADDED / REMOVED / CHANGED per key.  The union of the
two key sets is iterated in first-occurrence order (the source iterates a
Python set, whose order is unspecified). -/
def diff_snapshot_item (a b : SnapshotItemState) : List FieldChange :=
  let qchanges : List FieldChange :=
    if a.quantity ≠ b.quantity then
      [⟨"QUANTITY_CHANGED", none, .num a.quantity, .num b.quantity⟩]
    else []
  let attrs_a := _filter_semantic_attributes a.attributes
  let attrs_b := _filter_semantic_attributes b.attributes
  let all_keys := keyUnion (attrs_a.map Prod.fst) (attrs_b.map Prod.fst)
  qchanges ++ all_keys.filterMap (fun key =>
    let val_a := pyDictGet attrs_a key
    let val_b := pyDictGet attrs_b key
    if val_a = val_b then none
    else if ¬ pyDictHas attrs_a key then
      some ⟨"ATTRIBUTE_ADDED", some key, .val .vNone, .val val_b⟩
    else if ¬ pyDictHas attrs_b key then
      some ⟨"ATTRIBUTE_REMOVED", some key, .val val_a, .val .vNone⟩
    else
      some ⟨"ATTRIBUTE_CHANGED", some key, .val val_a, .val val_b⟩)

/-- `_create_semantic_key`: the `part_id|quantity|sorted-semantic-attrs-json`
string.  The source additionally MD5-hashes this string "for consistent key
format"; only equality of keys matters for matching, so the model keeps the
pre-image (treating MD5 as injective on the strings that arise). -/
def _create_semantic_key (part_id : Option Nat) (quantity : Option ℚ)
    (attributes : AttrMap) : String :=
  let semantic_attrs := _filter_semantic_attributes attributes
  String.intercalate "|"
    [(match part_id with | some p => toString p | none => "NO_PART"),
     (match quantity with | some q => toString q | none => "NO_QTY"),
     (if semantic_attrs.isEmpty then "\x7b\x7d" else jsonObj (sortByKey semantic_attrs))]

/-- `_create_part_based_key`. -/
def _create_part_based_key (part_id : Option Nat) : String :=
  match part_id with | some p => toString p | none => "NO_PART"

/-- Buckets: `Dict[str, List[Tuple[id, state]]]` in key-insertion order. -/
abbrev Buckets := List (String × List (Nat × SnapshotItemState))

def bucketAdd (m : Buckets) (k : String) (x : Nat × SnapshotItemState) : Buckets :=
  if (m.lookup k).isSome then
    m.map (fun p => if p.1 = k then (p.1, p.2 ++ [x]) else p)
  else m ++ [(k, [x])]

/-- Build the semantic / part keyed maps by iterating the state dict in order. -/
def buildBuckets (st : List SnapshotItemState) (keyOf : SnapshotItemState → String) :
    Buckets :=
  st.foldl (fun m s => bucketAdd m (keyOf s) (s.bom_item_id, s)) []

/-- The nested best-pair scan of the semantic matching loop: first pair with
equal checksums wins; otherwise the first pair at all.  Returns the pair of
indices and whether it was an exact-checksum pair. -/
def findBestPair (ua ub : List (Nat × SnapshotItemState)) :
    Option (Nat × Nat × Bool) :=
  ua.enum.foldl (fun best ia =>
    ub.enum.foldl (fun best ib =>
      let is_exact := ia.2.2.checksum = ib.2.2.checksum
      match best with
      | some (_, _, true) => best
      | some (ba, bb, false) => if is_exact then some (ia.1, ib.1, true) else some (ba, bb, false)
      | none => some (ia.1, ib.1, is_exact)) best) none

/-- The `while items_a_unmatched and items_b_unmatched` loop of the semantic
tier.  The source pops the matched item from each list, reading the second
element *before* the index adjustment
(`if best_match_idx_b > best_match_idx_a: best_match_idx_b -= 1`) and popping
it *after* — transcribed verbatim.  One element of `ua` is removed per
iteration, so `ua.length + 1` fuel suffices. -/
def semanticMatchLoop : Nat → List (Nat × SnapshotItemState) →
    List (Nat × SnapshotItemState) → List (Nat × Nat) → List (Nat × Nat)
  | 0, _, _, acc => acc
  | fuel + 1, ua, ub, acc =>
    if ua.isEmpty ∨ ub.isEmpty then acc
    else
      match findBestPair ua ub with
      | none => acc
      | some (ia, ib, _) =>
        let a := (ua.get? ia).getD (0, dummyItemState)
        let b := (ub.get? ib).getD (0, dummyItemState)
        let ib' := if ia < ib then ib - 1 else ib
        semanticMatchLoop fuel (ua.eraseIdx ia) (ub.eraseIdx ib') (acc ++ [(a.1, b.1)])

/-- Matching state threaded through the bucket folds:
(matched ids of A, matched ids of B, matched pairs). -/
abbrev MatchState := List Nat × List Nat × List (Nat × Nat)

/-- Tier 2: for every semantic key, pair up still-unmatched items of the two
buckets via `semanticMatchLoop`. -/
def semanticTier (buckets_a buckets_b : Buckets) (st : MatchState) : MatchState :=
  (keyUnion (buckets_a.map Prod.fst) (buckets_b.map Prod.fst)).foldl
    (fun st k =>
      let (ma, mb, ps) := st
      let ua := ((buckets_a.lookup k).getD []).filter (fun x => ¬ ma.contains x.1)
      let ub := ((buckets_b.lookup k).getD []).filter (fun x => ¬ mb.contains x.1)
      let newPairs := semanticMatchLoop (ua.length + 1) ua ub []
      (ma ++ newPairs.map Prod.fst, mb ++ newPairs.map Prod.snd, ps ++ newPairs))
    st

/-- The first-available pairing loop of the part tier. -/
def partMatchLoop : Nat → List (Nat × SnapshotItemState) →
    List (Nat × SnapshotItemState) → List (Nat × Nat) → List (Nat × Nat)
  | 0, _, _, acc => acc
  | fuel + 1, ua, ub, acc =>
    match ua, ub with
    | a :: ua', b :: ub' => partMatchLoop fuel ua' ub' (acc ++ [(a.1, b.1)])
    | _, _ => acc

/-- Tier 3: pair remaining unmatched items sharing a part id, first-available. -/
def partTier (part_map_a part_map_b : Buckets) (st : MatchState) : MatchState :=
  (keyUnion (part_map_a.map Prod.fst) (part_map_b.map Prod.fst)).foldl
    (fun st k =>
      let (ma, mb, ps) := st
      let ua := ((part_map_a.lookup k).getD []).filter (fun x => ¬ ma.contains x.1)
      let ub := ((part_map_b.lookup k).getD []).filter (fun x => ¬ mb.contains x.1)
      let newPairs := partMatchLoop (ua.length + 1) ua ub []
      (ma ++ newPairs.map Prod.fst, mb ++ newPairs.map Prod.snd, ps ++ newPairs))
    st

/-- `DiffResult` (the two snapshot-id fields of the source are its verbatim
arguments and are omitted; the four content fields are kept). -/
structure DiffResult where
  added_items : List Nat
  removed_items : List Nat
  modified_items : List (Nat × List FieldChange)
  unchanged_count : Nat
deriving DecidableEq, Repr

/-- `state_x[bom_item_id]` — dict lookup (keys are unique in a snapshot state). -/
def stateLookup (st : List SnapshotItemState) (i : Nat) : SnapshotItemState :=
  (st.find? (fun s => s.bom_item_id = i)).getD dummyItemState

/-- Ascending sort used for `sorted(list(added_ids))`. -/
def sortNat (l : List Nat) : List Nat :=
  List.insertionSort (· ≤ ·) l

/-- `diff_snapshots` from `snapshot_diff.py`, with the store interaction
factored out: the two arguments are the snapshot states that
`fetch_snapshot_state` would load (each a dict `bom_item_id -> state`,
modelled as a list in insertion order with unique `bom_item_id`s).
Tier 1 matches common bom_item_ids, tier 2 semantic keys, tier 3 part ids;
leftover items are added/removed; matched pairs are modified when the stored
checksums differ *and* the field diff is non-empty, unchanged when the
checksums are equal. -/
def diff_snapshots (state_a state_b : List SnapshotItemState) : DiffResult :=
  let keysA := state_a.map (·.bom_item_id)
  let keysB := state_b.map (·.bom_item_id)
  let semantic_map_a := buildBuckets state_a
    (fun s => _create_semantic_key s.part_id s.quantity s.attributes)
  let semantic_map_b := buildBuckets state_b
    (fun s => _create_semantic_key s.part_id s.quantity s.attributes)
  let part_map_a := buildBuckets state_a (fun s => _create_part_based_key s.part_id)
  let part_map_b := buildBuckets state_b (fun s => _create_part_based_key s.part_id)
  let common := keysA.filter (fun i => keysB.contains i)
  let st1 : MatchState := (common, common, common.map (fun i => (i, i)))
  let st2 := semanticTier semantic_map_a semantic_map_b st1
  let st3 := partTier part_map_a part_map_b st2
  let (matchedA, matchedB, matched_pairs) := st3
  let added_ids := keysB.filter (fun i => ¬ matchedB.contains i)
  let removed_ids := keysA.filter (fun i => ¬ matchedA.contains i)
  let modified_items := matched_pairs.filterMap (fun p =>
    let sa := stateLookup state_a p.1
    let sb := stateLookup state_b p.2
    if sa.checksum ≠ sb.checksum then
      let changes := diff_snapshot_item sa sb
      if changes.isEmpty then none else some (p.2, changes)
    else none)
  let unchanged_count := (matched_pairs.filter (fun p =>
    (stateLookup state_a p.1).checksum = (stateLookup state_b p.2).checksum)).length
  ⟨sortNat added_ids, sortNat removed_ids, modified_items, unchanged_count⟩

/-! ### Change-event classification (`change_events.py`) -/

inductive ChangeEventType where
  | PART_ADDED | PART_REMOVED | PART_SUBSTITUTED | MANUFACTURER_CHANGED
  | QUANTITY_CHANGED | SPEC_ATTRIBUTE_CHANGED | REFERENCE_DESIGNATOR_CHANGED
  | UNCLASSIFIED_CHANGE
deriving DecidableEq, Repr

inductive Severity where
  | HIGH | MEDIUM | LOW
deriving DecidableEq, Repr

inductive Domain where
  | ENGINEERING | PROCUREMENT | MANUFACTURING | QUALITY
deriving DecidableEq, Repr

/-- `ItemDelta`: canonical fact record per changed item.  The Python
`Set[str]` of changed attribute names is modelled as a duplicate-free list in
insertion order. -/
structure ItemDelta where
  bom_item_id : Nat
  part_id : Option Nat
  added : Bool
  removed : Bool
  quantity_changed : Bool
  manufacturer_changed : Bool
  mpn_changed : Bool
  reference_designator_changed : Bool
  changed_attributes : List String
  field_changes : List FieldChange
  quantity_from : Option ℚ
  quantity_to : Option ℚ
deriving DecidableEq, Repr

/-- `ItemDelta.has_any_change`. -/
def ItemDelta.has_any_change (d : ItemDelta) : Bool :=
  d.added ∨ d.removed ∨ d.quantity_changed ∨ d.manufacturer_changed ∨
  d.mpn_changed ∨ d.reference_designator_changed ∨ 0 < d.changed_attributes.length

/-- `ChangeEvent`. -/
structure ChangeEvent where
  bom_item_id : Nat
  part_id : Option Nat
  event_type : ChangeEventType
  severity : Severity
  affected_domains : List Domain
  evidence : List FieldChange
  summary : String
  delta : Option ItemDelta
deriving DecidableEq, Repr

def SPEC_ATTRIBUTE_KEYS : List String :=
  ["value", "tolerance", "package", "footprint", "material", "voltage_rating",
   "current_rating", "power_rating", "temperature_rating", "description", "unit"]

def MANUFACTURER_KEYS : List String :=
  ["manufacturer", "mfr", "vendor", "brand"]

def MPN_KEYS : List String :=
  ["manufacturer_part_number", "mpn", "mfr_part_number", "part_number",
   "vendor_part_number"]

def REFDES_KEYS : List String :=
  ["reference_designator", "refdes", "designator"]

/-- Python substring containment `needle in hay` for strings. -/
def strHasSub (needle hay : String) : Bool :=
  (List.range (hay.data.length + 1)).any
    (fun i => ((hay.data.drop i).take needle.data.length) = needle.data)

/-- `field_lower in KEYS or any(k in field_lower for k in KEYS)`:
exact membership or any key occurring as a substring of the field name. -/
def keyMatches (keys : List String) (field_lower : String) : Bool :=
  keys.contains field_lower ∨ keys.any (fun k => strHasSub k field_lower)

/-- `add` to a Python set modelled as an ordered duplicate-free list. -/
def setAdd (s : List String) (x : String) : List String :=
  if s.contains x then s else s ++ [x]

/-- `_compute_item_delta_from_modified`: fold the field changes into flags.
MPN keys are checked before manufacturer keys, then refdes, then spec keys,
with unrecognized names still tracked in `changed_attributes`. -/
def _compute_item_delta_from_modified (bom_item_id : Nat)
    (changes : List FieldChange) : ItemDelta :=
  changes.foldl
    (fun d change =>
      if change.type = "QUANTITY_CHANGED" then
        { d with
            quantity_changed := true
            quantity_from := match change.from_value with | .num q => q | .val _ => none
            quantity_to := match change.to_value with | .num q => q | .val _ => none }
      else if change.type = "ATTRIBUTE_CHANGED" ∨ change.type = "ATTRIBUTE_ADDED" ∨
              change.type = "ATTRIBUTE_REMOVED" then
        match change.field with
        | none => d
        | some field_name =>
          let field_lower : String := ⟨field_name.data.map Char.toLower⟩
          if keyMatches MPN_KEYS field_lower then { d with mpn_changed := true }
          else if keyMatches MANUFACTURER_KEYS field_lower then
            { d with manufacturer_changed := true }
          else if keyMatches REFDES_KEYS field_lower then
            { d with reference_designator_changed := true }
          else { d with changed_attributes := setAdd d.changed_attributes field_name }
      else d)
    ⟨bom_item_id, none, false, false, false, false, false, false, [], changes, none, none⟩

/-- `_compute_item_delta_added`. -/
def _compute_item_delta_added (bom_item_id : Nat) : ItemDelta :=
  ⟨bom_item_id, none, true, false, false, false, false, false, [], [], none, none⟩

/-- `_compute_item_delta_removed`. -/
def _compute_item_delta_removed (bom_item_id : Nat) : ItemDelta :=
  ⟨bom_item_id, none, false, true, false, false, false, false, [], [], none, none⟩

def _classify_added (delta : ItemDelta) : Option ChangeEvent :=
  if ¬ delta.added then none
  else some ⟨delta.bom_item_id, delta.part_id, .PART_ADDED, .HIGH,
    [.ENGINEERING, .PROCUREMENT], delta.field_changes, "New part added to BOM",
    some delta⟩

def _classify_removed (delta : ItemDelta) : Option ChangeEvent :=
  if ¬ delta.removed then none
  else some ⟨delta.bom_item_id, delta.part_id, .PART_REMOVED, .HIGH,
    [.ENGINEERING, .PROCUREMENT], delta.field_changes, "Part removed from BOM",
    some delta⟩

def _classify_substituted (delta : ItemDelta) : Option ChangeEvent :=
  if ¬ (delta.manufacturer_changed ∧ delta.mpn_changed) then none
  else some ⟨delta.bom_item_id, delta.part_id, .PART_SUBSTITUTED, .HIGH,
    [.PROCUREMENT, .ENGINEERING], delta.field_changes,
    "Part substituted (different manufacturer and MPN)", some delta⟩

def _classify_manufacturer_changed (delta : ItemDelta) : Option ChangeEvent :=
  if ¬ delta.manufacturer_changed then none
  else if delta.mpn_changed then none
  else some ⟨delta.bom_item_id, delta.part_id, .MANUFACTURER_CHANGED, .MEDIUM,
    [.PROCUREMENT], delta.field_changes, "Manufacturer changed", some delta⟩

/-- Renders the quantity as `int(x)` when integral (the source drops a trailing
`.0`), else as the rational. -/
def qtyStr (q : ℚ) : String :=
  if q.den = 1 then toString q.num else toString q

def _classify_quantity_changed (delta : ItemDelta) : Option ChangeEvent :=
  if ¬ delta.quantity_changed then none
  else
    let summary := match delta.quantity_from, delta.quantity_to with
      | some qf, some qt => "Quantity changed: " ++ qtyStr qf ++ " → " ++ qtyStr qt
      | _, _ => "Quantity changed"
    some ⟨delta.bom_item_id, delta.part_id, .QUANTITY_CHANGED, .MEDIUM,
      [.PROCUREMENT, .MANUFACTURING], delta.field_changes, summary, some delta⟩

def _classify_refdes_changed (delta : ItemDelta) : Option ChangeEvent :=
  if ¬ delta.reference_designator_changed then none
  else some ⟨delta.bom_item_id, delta.part_id, .REFERENCE_DESIGNATOR_CHANGED, .LOW,
    [.MANUFACTURING], delta.field_changes, "Reference designator changed", some delta⟩

def sortStr (l : List String) : List String :=
  List.insertionSort (· ≤ ·) l

def _classify_spec_attribute_changed (delta : ItemDelta) : Option ChangeEvent :=
  if delta.changed_attributes.isEmpty then none
  else
    let spec_changes := delta.changed_attributes.filter
      (fun a => SPEC_ATTRIBUTE_KEYS.contains a)
    if spec_changes.isEmpty then none
    else some ⟨delta.bom_item_id, delta.part_id, .SPEC_ATTRIBUTE_CHANGED, .MEDIUM,
      [.ENGINEERING], delta.field_changes,
      "Specification changed: " ++ String.intercalate ", " (sortStr spec_changes),
      some delta⟩

def _classify_unclassified (delta : ItemDelta) : Option ChangeEvent :=
  if ¬ delta.has_any_change then none
  else
    let descs := (if delta.changed_attributes.isEmpty then [] else
        ["attributes: " ++ String.intercalate ", " (sortStr delta.changed_attributes)]) ++
      (if delta.mpn_changed then ["MPN"] else [])
    let summary := if descs.isEmpty then "Unclassified change"
      else "Unclassified change: " ++ String.intercalate "; " descs
    some ⟨delta.bom_item_id, delta.part_id, .UNCLASSIFIED_CHANGE, .LOW, [],
      delta.field_changes, summary, some delta⟩

/-- `CLASSIFICATION_RULES` — ordered, first match wins. -/
def CLASSIFICATION_RULES : List (ItemDelta → Option ChangeEvent) :=
  [_classify_added, _classify_removed, _classify_substituted,
   _classify_manufacturer_changed, _classify_quantity_changed,
   _classify_refdes_changed, _classify_spec_attribute_changed,
   _classify_unclassified]

def firstRuleHit : List (ItemDelta → Option ChangeEvent) → ItemDelta →
    Option ChangeEvent
  | [], _ => none
  | r :: rest, d => match r d with | some e => some e | none => firstRuleHit rest d

/-- `_classify_delta`: short-circuit on no change, else first matching rule. -/
def _classify_delta (delta : ItemDelta) : Option ChangeEvent :=
  if ¬ delta.has_any_change then none
  else firstRuleHit CLASSIFICATION_RULES delta

/-! ### String and map similarity (`supabase_client.py`)

`_string_similarity` delegates to `difflib.SequenceMatcher(None, a, b).ratio()`,
ported here exactly (isjunk is `None`, so the junk set is empty and only the
autojunk popularity filter remains); ratios are exact rationals. -/

/-- `__chain_b`: map each element of `b` to the ascending list of its indices,
dropping "popular" elements (more than `n/100 + 1` occurrences) when
`n = len b ≥ 200` (autojunk). -/
def smB2jRaw (b : List Char) : List (Char × List Nat) :=
  b.enum.foldl
    (fun m ic =>
      if (m.lookup ic.2).isSome then
        m.map (fun p => if p.1 = ic.2 then (p.1, p.2 ++ [ic.1]) else p)
      else m ++ [(ic.2, [ic.1])])
    []

def smB2j (b : List Char) : List (Char × List Nat) :=
  let base := smB2jRaw b
  let n := b.length
  if 200 ≤ n then
    let ntest := n / 100 + 1
    base.filter (fun p => ¬ ntest < p.2.length)
  else base

/-- Update `newj2len[j] := k` (plain dict set). -/
def j2lenSet (m : List (Nat × Nat)) (k v : Nat) : List (Nat × Nat) :=
  if (m.lookup k).isSome then m.map (fun p => if p.1 = k then (k, v) else p)
  else m ++ [(k, v)]

/-- One `i` iteration of the `find_longest_match` dynamic program: reads run
lengths from the previous row `j2len`, writes the fresh row, tracks the best
block.  `b2j[a[i]]` is ascending, so the `continue`/`break` on `j < blo` /
`j >= bhi` is a filter and a takeWhile. -/
def flmStep (a : List Char) (b2j : List (Char × List Nat)) (blo bhi : Nat)
    (st : List (Nat × Nat) × Nat × Nat × Nat) (i : Nat) :
    List (Nat × Nat) × Nat × Nat × Nat :=
  let (j2len, besti, bestj, bestsize) := st
  let idxs := (((b2j.lookup (a.getD i ' ')).getD []).filter
    (fun j => blo ≤ j)).takeWhile (fun j => j < bhi)
  let res := idxs.foldl
    (fun (acc : List (Nat × Nat) × Nat × Nat × Nat) j =>
      let (newj2len, besti, bestj, bestsize) := acc
      let k := (j2len.lookup (j - 1)).getD 0 + 1
      let newj2len := j2lenSet newj2len j k
      if bestsize < k then (newj2len, i + 1 - k, j + 1 - k, k)
      else (newj2len, besti, bestj, bestsize))
    ([], besti, bestj, bestsize)
  res

/-- Backward extension `while besti > alo and bestj > blo and a[besti-1] ==
b[bestj-1]` (junk set empty); returns the number of extension steps. -/
def extBack (a b : List Char) (alo blo : Nat) : Nat → Nat → Nat → Nat
  | _, _, 0 => 0
  | i, j, fuel + 1 =>
    if alo < i ∧ blo < j ∧ a.getD (i - 1) ' ' = b.getD (j - 1) ' ' then
      extBack a b alo blo (i - 1) (j - 1) fuel + 1
    else 0

/-- Forward extension past the current best block. -/
def extFwd (a b : List Char) (ahi bhi : Nat) : Nat → Nat → Nat → Nat
  | _, _, 0 => 0
  | i, j, fuel + 1 =>
    if i < ahi ∧ j < bhi ∧ a.getD i ' ' = b.getD j ' ' then
      extFwd a b ahi bhi (i + 1) (j + 1) fuel + 1
    else 0

/-- `SequenceMatcher.find_longest_match` on `a[alo:ahi]`, `b[blo:bhi]`. -/
def find_longest_match (a b : List Char) (b2j : List (Char × List Nat))
    (alo ahi blo bhi : Nat) : Nat × Nat × Nat :=
  let st := (List.range' alo (ahi - alo)).foldl (flmStep a b2j blo bhi)
    ([], alo, blo, 0)
  let (_, besti, bestj, bestsize) := st
  let back := extBack a b alo blo besti bestj besti
  let besti := besti - back
  let bestj := bestj - back
  let bestsize := bestsize + back
  let fwd := extFwd a b ahi bhi (besti + bestsize) (bestj + bestsize) ahi
  (besti, bestj, bestsize + fwd)

/-- Total matched size over the recursive block decomposition of
`get_matching_blocks` (its queue merges adjacent blocks, which leaves this sum
unchanged); `ratio` needs only the sum.  Each recursive call strictly shrinks
the two ranges, so `len a + len b + 1` fuel suffices. -/
def matchingTotal (a b : List Char) (b2j : List (Char × List Nat)) :
    Nat → Nat → Nat → Nat → Nat → Nat
  | 0, _, _, _, _ => 0
  | fuel + 1, alo, ahi, blo, bhi =>
    let (i, j, k) := find_longest_match a b b2j alo ahi blo bhi
    if k = 0 then 0
    else matchingTotal a b b2j fuel alo i blo j + k +
         matchingTotal a b b2j fuel (i + k) ahi (j + k) bhi

/-- `SequenceMatcher(None, a, b).ratio()` as an exact rational:
`2 * matches / (len a + len b)`, or 1 when both are empty. -/
def smRatio (a b : List Char) : ℚ :=
  let nmatches := matchingTotal a b (smB2j b) (a.length + b.length + 1)
    0 a.length 0 b.length
  let length := a.length + b.length
  if length ≠ 0 then 2 * (nmatches : ℚ) / (length : ℚ) else 1

/-- `_string_similarity`: 0 when either string is empty, else the ratio over
the lowercased strings.  (`str.lower()` is modelled as ASCII `Char.toLower`;
no claim involves non-ASCII letters.) -/
def _string_similarity (a b : String) : ℚ :=
  if a = "" ∨ b = "" then 0
  else smRatio (a.data.map Char.toLower) (b.data.map Char.toLower)

/-- `_jsonb_similarity`: over the union of keys, skip both-missing, count a key
with exactly one side missing toward the total only, exact credit for equal
values (case-insensitive for strings), `0.8 ×` string similarity for unequal
strings.  `d.get(k)` yields `None` for absent keys and stored `None`s alike. -/
def _jsonb_similarity (attrs1 attrs2 : AttrMap) : ℚ :=
  if attrs1.isEmpty ∧ attrs2.isEmpty then 1
  else if attrs1.isEmpty ∨ attrs2.isEmpty then 0
  else
    let all_keys := keyUnion (attrs1.map Prod.fst) (attrs2.map Prod.fst)
    if all_keys.isEmpty then 1
    else
      let mt := all_keys.foldl
        (fun (mt : ℚ × Nat) key =>
          let val1 := pyDictGet attrs1 key
          let val2 := pyDictGet attrs2 key
          if val1 = .vNone ∧ val2 = .vNone then mt
          else
            let total := mt.2 + 1
            if val1 = .vNone ∨ val2 = .vNone then (mt.1, total)
            else match val1, val2 with
              | .vStr s1, .vStr s2 =>
                if s1.data.map Char.toLower = s2.data.map Char.toLower then
                  (mt.1 + 1, total)
                else (mt.1 + _string_similarity s1 s2 * 0.8, total)
              | v1, v2 => if v1 = v2 then (mt.1 + 1, total) else (mt.1, total))
        (0, 0)
      if 0 < mt.2 then mt.1 / (mt.2 : ℚ) else 0

/-! ### Snapshot ingestion (`snapshot_ingest.py`) -/

/-- `NormalizedRow`. -/
structure NormalizedRow where
  part_name : String
  quantity : Option Int
  attributes : AttrMap
  context : AttrMap
  row_index : Int
deriving DecidableEq, Repr

/-- `if row.attributes.get(k): out[k] = row.attributes[k]` — one key picked
into the output when present and truthy. -/
def pickTruthy (m : AttrMap) (k : String) : AttrMap :=
  if pyTruthy (pyDictGet m k) then [(k, pyDictGet m k)] else []

/-- `_extract_part_attributes`: value, tolerance, material, package,
manufacturer, manufacturer_part_number, description, unit — each only when
present and truthy, in source order. -/
def _extract_part_attributes (row : NormalizedRow) : AttrMap :=
  pickTruthy row.attributes "value" ++ pickTruthy row.attributes "tolerance" ++
  pickTruthy row.attributes "material" ++ pickTruthy row.attributes "package" ++
  pickTruthy row.attributes "manufacturer" ++
  pickTruthy row.attributes "manufacturer_part_number" ++
  pickTruthy row.attributes "description" ++ pickTruthy row.attributes "unit"

/-- `_extract_bom_item_context`: notes, placement, torque, install_notes from
the row context — reference designator deliberately excluded. -/
def _extract_bom_item_context (row : NormalizedRow) : AttrMap :=
  pickTruthy row.context "notes" ++ pickTruthy row.context "placement" ++
  pickTruthy row.context "torque" ++ pickTruthy row.context "install_notes"

/-- `_extract_snapshot_attributes`: reference designator (when truthy) plus the
always-present `row_index`. -/
def _extract_snapshot_attributes (row : NormalizedRow) : AttrMap :=
  pickTruthy row.context "reference_designator" ++ [("row_index", .vInt row.row_index)]

/-- One aggregated entry (`bom_item_aggregated[bom_item_id]`): running quantity,
merged snapshot attributes, contributing row indices. -/
structure AggEntry where
  quantity : Int
  attributes : AttrMap
  row_indices : List Int
deriving DecidableEq, Repr

/-- Per-key merge body of the aggregation loop (lines 981-994 of
`snapshot_ingest.py`): `row_index` keys feed the `row_indices` list attribute
(deduplicated); otherwise a new or falsy-valued key takes the new value; an
existing non-empty `reference_designator` is kept (`pass`); any other existing
truthy value is kept. -/
def mergeSnapshotAttr (rowIdxsSoFar : List Int) (row_index : Int)
    (existing : AttrMap) (kv : String × Value) : AttrMap :=
  if kv.1 = "row_index" then
    match existing.lookup "row_indices" with
    | none =>
      let l := rowIdxsSoFar
      let l := if l.contains row_index then l else l ++ [row_index]
      existing ++ [("row_indices", .vList l)]
    | some (.vList l) =>
      if l.contains row_index then existing
      else pyDictSet existing "row_indices" (.vList (l ++ [row_index]))
    | some _ => existing
  else if ¬ pyDictHas existing kv.1 then existing ++ [kv]
  else if ¬ pyTruthy (pyDictGet existing kv.1) then pyDictSet existing kv.1 kv.2
  else existing

/-- Fold one `(bom_item_id, row)` mapping into the aggregation dict. -/
def aggStep (m : List (Nat × AggEntry)) (bid : Nat) (row : NormalizedRow) :
    List (Nat × AggEntry) :=
  match m.lookup bid with
  | none =>
    m ++ [(bid, ⟨row.quantity.getD 0, _extract_snapshot_attributes row, [row.row_index]⟩)]
  | some ex =>
    let q := match row.quantity with
      | some q => ex.quantity + q
      | none => ex.quantity
    let attrs := (_extract_snapshot_attributes row).foldl
      (mergeSnapshotAttr ex.row_indices row.row_index) ex.attributes
    m.map (fun p =>
      if p.1 = bid then (bid, ⟨q, attrs, ex.row_indices ++ [row.row_index]⟩) else p)

/-- The aggregation of step 4 of `ingest_bom_snapshot`: fold the resolved
`(bom_item_id, row)` mappings in order. -/
def aggregateMappings (mappings : List (Nat × NormalizedRow)) :
    List (Nat × AggEntry) :=
  mappings.foldl (fun m br => aggStep m br.1 br.2) []

/-- The quantity persisted for an aggregated entry:
`aggregated['quantity'] if aggregated['quantity'] > 0 else None`. -/
def persistedQuantity (e : AggEntry) : Option Int :=
  if 0 < e.quantity then some e.quantity else none

/-! #### The abstract transactional store and the ingestion monad

Python exceptions are values of `PyErr`; every store method either returns a
result and a new store state or fails atomically (the spec's "store calls fail
atomically: success or exception, no partial effect").  Each attempted call is
recorded in a trace for the fail-fast / rollback theorems. -/

inductive PyErr where
  | valueError (msg : String) : PyErr
  | dbError (code : Nat) : PyErr
deriving DecidableEq, Repr

/-- Tags naming the `DatabaseClient` methods, for call traces. -/
inductive DbCall where
  | beginTransaction | getOrCreateOrganization | getAssemblyById
  | getOrCreateAssembly | findSimilarParts | createPart | findSimilarBomItems
  | createBomItem | createSnapshot | insertSnapshotItem | commitTransaction
  | rollbackTransaction
deriving DecidableEq, Repr

/-- The `DatabaseClient` interface over an abstract store state `σ`.
`rollback_transaction` is modelled total (its own failure mode is not part of
any claim). -/
structure DB (σ : Type) where
  begin_transaction : σ → Except PyErr σ
  get_or_create_organization : σ → Nat → Except PyErr (Nat × σ)
  get_assembly_by_id : σ → Nat → Nat → Except PyErr (Nat × σ)
  get_or_create_assembly : σ → Nat → String → Except PyErr (Nat × σ)
  find_similar_parts : σ → Nat → String → AttrMap → ℚ → Except PyErr (List (Nat × ℚ) × σ)
  create_part : σ → Nat → String → AttrMap → Except PyErr (Nat × σ)
  find_similar_bom_items : σ → Nat → Nat → AttrMap → ℚ → Except PyErr (List (Nat × ℚ) × σ)
  create_bom_item : σ → Nat → Nat → AttrMap → Except PyErr (Nat × σ)
  create_snapshot : σ → Nat → Nat → String → Option Nat → Except PyErr (Nat × σ)
  insert_snapshot_item : σ → Nat → Nat → Option Int → AttrMap → String → Except PyErr σ
  commit_transaction : σ → Except PyErr σ
  rollback_transaction : σ → σ

/-- Exception-plus-state-plus-trace monad for the transaction body. -/
def IngM (σ α : Type) : Type := σ → List DbCall → Except PyErr α × σ × List DbCall

def IngM.pure {σ α : Type} (a : α) : IngM σ α := fun s tr => (.ok a, s, tr)

def IngM.bind {σ α β : Type} (x : IngM σ α) (f : α → IngM σ β) : IngM σ β :=
  fun s tr =>
    match x s tr with
    | (.ok a, s', tr') => f a s' tr'
    | (.error e, s', tr') => (.error e, s', tr')

instance : Monad (IngM σ) where
  pure := IngM.pure
  bind := IngM.bind

/-- Run one store call: log the attempt; on failure the state is unchanged
(atomic store calls). -/
def callDB {σ α : Type} (tag : DbCall) (f : σ → Except PyErr (α × σ)) : IngM σ α :=
  fun s tr =>
    match f s with
    | .ok (a, s') => (.ok a, s', tr ++ [tag])
    | .error e => (.error e, s, tr ++ [tag])

/-- `_resolve_or_create_part`: query similar parts at threshold 0.8; reuse the
best (first) match when any; else create.  (Written with explicit `IngM.bind`
so the resolution logic unfolds step by step in proofs.) -/
def _resolve_or_create_part {σ : Type} (db : DB σ) (org_id : Nat)
    (row : NormalizedRow) : IngM σ Nat :=
  let part_attributes := _extract_part_attributes row
  IngM.bind (callDB .findSimilarParts
    (fun s => db.find_similar_parts s org_id row.part_name part_attributes 0.8))
    (fun similar_parts =>
      match similar_parts with
      | (best_match_id, _) :: _ => IngM.pure best_match_id
      | [] => callDB .createPart
          (fun s => db.create_part s org_id row.part_name part_attributes))

/-- `_resolve_or_create_bom_item`: threshold 0.7 over the stable usage context. -/
def _resolve_or_create_bom_item {σ : Type} (db : DB σ) (assembly_id part_id : Nat)
    (row : NormalizedRow) : IngM σ Nat := do
  let context := _extract_bom_item_context row
  let similar_items ← callDB .findSimilarBomItems
    (fun s => db.find_similar_bom_items s assembly_id part_id context 0.7)
  match similar_items with
  | (best_match_id, _) :: _ => pure best_match_id
  | [] => callDB .createBomItem (fun s => db.create_bom_item s assembly_id part_id context)

/-- The transaction body of `ingest_bom_snapshot` (everything inside the
`try:` block, commit included): resolve organization and assembly, resolve a
part and a bom_item per row, create the snapshot, aggregate, insert a
snapshot item per aggregated usage, commit, return the snapshot id. -/
def ingestBody {σ : Type} (db : DB σ) (org_id : Nat) (rows : List NormalizedRow)
    (assembly_id : Option Nat) (assembly_name : Option String)
    (parent_snapshot_id : Option Nat) : IngM σ Nat := do
  let org ← callDB .getOrCreateOrganization
    (fun s => db.get_or_create_organization s org_id)
  let asm ← (match assembly_id with
    | some aid => callDB .getAssemblyById (fun s => db.get_assembly_by_id s org aid)
    | none => callDB .getOrCreateAssembly
        (fun s => db.get_or_create_assembly s org (assembly_name.getD "")) : IngM σ Nat)
  let mappings ← rows.foldlM
    (fun (acc : List (Nat × NormalizedRow)) row => do
      let part_id ← _resolve_or_create_part db org row
      let bom_item_id ← _resolve_or_create_bom_item db asm part_id row
      pure (acc ++ [(bom_item_id, row)]))
    []
  let snapshot_id ← callDB .createSnapshot
    (fun s => db.create_snapshot s org asm "csv" parent_snapshot_id)
  let aggregated := aggregateMappings mappings
  let _ ← aggregated.foldlM
    (fun (_ : Unit) entry => do
      let quantity := persistedQuantity entry.2
      let checksum := _compute_checksum quantity entry.2.attributes
      callDB .insertSnapshotItem (fun s =>
        (db.insert_snapshot_item s snapshot_id entry.1 quantity entry.2.attributes
          checksum).map (fun s' => ((), s'))))
    ()
  let _ ← callDB .commitTransaction
    (fun s => (db.commit_transaction s).map (fun s' => ((), s')))
  pure snapshot_id

/-- `ingest_bom_snapshot`: validation (before any store interaction), then
`begin_transaction` (outside the `try`), then the body; on any body error,
roll back and re-raise the body's error unchanged.  Returns the result, the
final store state, and the trace of attempted store calls. -/
def ingest_bom_snapshot {σ : Type} (db : DB σ) (org_id : Nat)
    (rows : List NormalizedRow) (assembly_id : Option Nat)
    (assembly_name : Option String) (parent_snapshot_id : Option Nat) (s : σ) :
    Except PyErr Nat × σ × List DbCall :=
  if rows.isEmpty then
    (.error (.valueError "Cannot ingest empty BOM snapshot"), s, [])
  else if assembly_id.isNone ∧ assembly_name.isNone then
    (.error (.valueError "Must provide either assembly_id or assembly_name, but not both."), s, [])
  else if assembly_id.isSome ∧ assembly_name.isSome then
    (.error (.valueError "Cannot provide both assembly_id and assembly_name."), s, [])
  else
    match db.begin_transaction s with
    | .error e => (.error e, s, [.beginTransaction])
    | .ok s1 =>
      match ingestBody db org_id rows assembly_id assembly_name parent_snapshot_id
        s1 [.beginTransaction] with
      | (.ok snap, s2, tr) => (.ok snap, s2, tr)
      | (.error e, s2, tr) =>
        (.error e, db.rollback_transaction s2, tr ++ [.rollbackTransaction])

/-! ### In-memory model of `SupabaseClient`

The SQL bodies of `supabase_client.py` are modelled over explicit tables.
`uuid4()` is a fresh-id counter.  `begin/commit` are the connection-pool
bookkeeping of the source and do not change the tables; `rollback` is modelled
as the identity on the in-memory view (no theorem relies on it). -/

structure SupaPart where
  id : Nat
  org_id : Nat
  name : String
  attributes : AttrMap
deriving DecidableEq, Repr

structure SupaBomItem where
  id : Nat
  assembly_id : Nat
  part_id : Nat
  context : AttrMap
deriving DecidableEq, Repr

structure SupaSnapshot where
  id : Nat
  org_id : Nat
  assembly_id : Nat
  source : String
  parent_snapshot_id : Option Nat
deriving DecidableEq, Repr

structure SupaSnapshotItem where
  snapshot_id : Nat
  bom_item_id : Nat
  quantity : Option Int
  attributes : AttrMap
  checksum : String
deriving DecidableEq, Repr

structure SupaState where
  organizations : List Nat
  assemblies : List (Nat × Nat × String)
  parts : List SupaPart
  bom_items : List SupaBomItem
  snapshots : List SupaSnapshot
  snapshot_items : List SupaSnapshotItem
  has_context : Bool
  next_id : Nat
deriving DecidableEq, Repr

/-- The combined part score of `find_similar_parts`:
`name_sim * 0.6 + attr_sim * 0.4`. -/
def partScore (part_name : String) (attributes : AttrMap) (c : SupaPart) : ℚ :=
  _string_similarity part_name c.name * 0.6 + _jsonb_similarity attributes c.attributes * 0.4

/-- Descending stable sort by score (`matches.sort(key=score, reverse=True)`). -/
def sortByScoreDesc (l : List (Nat × ℚ)) : List (Nat × ℚ) :=
  List.insertionSort (fun x y => y.2 ≤ x.2) l

/-- `SupabaseClient.find_similar_parts`: score every part of the organization,
keep those at or above the threshold, sort descending. -/
def supaFindSimilarParts (st : SupaState) (org_id : Nat) (part_name : String)
    (attributes : AttrMap) (threshold : ℚ) : List (Nat × ℚ) :=
  sortByScoreDesc ((st.parts.filter (fun p => p.org_id = org_id)).filterMap
    (fun c =>
      let score := partScore part_name attributes c
      if threshold ≤ score then some (c.id, score) else none))

/-- `SupabaseClient.find_similar_bom_items`: without a context column every
(assembly, part) row matches at score 1.0; with one, context similarity at or
above the threshold. -/
def supaFindSimilarBomItems (st : SupaState) (assembly_id part_id : Nat)
    (context : AttrMap) (threshold : ℚ) : List (Nat × ℚ) :=
  let candidates := st.bom_items.filter
    (fun b => b.assembly_id = assembly_id ∧ b.part_id = part_id)
  if ¬ st.has_context then
    sortByScoreDesc (candidates.map (fun b => (b.id, 1)))
  else
    sortByScoreDesc (candidates.filterMap (fun b =>
      let context_sim := _jsonb_similarity context b.context
      if threshold ≤ context_sim then some (b.id, context_sim) else none))

/-- The store state after `create_part` registers a new part with the row's
name and extracted attributes under a fresh id. -/
def supaCreatePartState (st : SupaState) (org : Nat) (row : NormalizedRow) :
    SupaState :=
  { st with
      parts := st.parts ++ [⟨st.next_id, org, row.part_name, _extract_part_attributes row⟩],
      next_id := st.next_id + 1 }

/-- The `DatabaseClient` instance over the in-memory Supabase model. -/
def supaDB : DB SupaState where
  begin_transaction := fun s => .ok s
  get_or_create_organization := fun s org_id =>
    if s.organizations.contains org_id then .ok (org_id, s)
    else .ok (org_id, { s with organizations := s.organizations ++ [org_id] })
  get_assembly_by_id := fun s org_id assembly_id =>
    if (s.assemblies.filter (fun a => a.1 = assembly_id ∧ a.2.1 = org_id)).isEmpty then
      .error (.valueError "Assembly not found or does not belong to organization.")
    else .ok (assembly_id, s)
  get_or_create_assembly := fun s org_id assembly_name =>
    match s.assemblies.find? (fun a => a.2.1 = org_id ∧ a.2.2 = assembly_name) with
    | some a => .ok (a.1, s)
    | none => .ok (s.next_id,
        { s with assemblies := s.assemblies ++ [(s.next_id, org_id, assembly_name)],
                 next_id := s.next_id + 1 })
  find_similar_parts := fun s org_id part_name attributes threshold =>
    .ok (supaFindSimilarParts s org_id part_name attributes threshold, s)
  create_part := fun s org_id part_name attributes =>
    .ok (s.next_id,
      { s with parts := s.parts ++ [⟨s.next_id, org_id, part_name, attributes⟩],
               next_id := s.next_id + 1 })
  find_similar_bom_items := fun s assembly_id part_id context threshold =>
    .ok (supaFindSimilarBomItems s assembly_id part_id context threshold, s)
  create_bom_item := fun s assembly_id part_id context =>
    .ok (s.next_id,
      { s with bom_items := s.bom_items ++
          [⟨s.next_id, assembly_id, part_id, if s.has_context then context else []⟩],
               next_id := s.next_id + 1 })
  create_snapshot := fun s org_id assembly_id source parent =>
    .ok (s.next_id,
      { s with snapshots := s.snapshots ++ [⟨s.next_id, org_id, assembly_id, source, parent⟩],
               next_id := s.next_id + 1 })
  insert_snapshot_item := fun s snapshot_id bom_item_id quantity attributes checksum =>
    if (s.snapshot_items.filter (fun (it : SupaSnapshotItem) =>
        it.snapshot_id = snapshot_id ∧ it.bom_item_id = bom_item_id)).isEmpty then
      .ok { s with snapshot_items := s.snapshot_items ++
        [⟨snapshot_id, bom_item_id, quantity, attributes, checksum⟩] }
    else
      .ok { s with snapshot_items := s.snapshot_items.map (fun (it : SupaSnapshotItem) =>
        if it.snapshot_id = snapshot_id ∧ it.bom_item_id = bom_item_id then
          ⟨snapshot_id, bom_item_id, quantity, attributes, checksum⟩
        else it) }
  commit_transaction := fun s => .ok s
  rollback_transaction := fun s => s

def emptySupaState : SupaState := ⟨[], [], [], [], [], [], true, 1⟩

/-- A store holding one part (id 1, org 100, name "r1", no attributes). -/
def onePartState : SupaState := ⟨[], [], [⟨1, 100, "r1", []⟩], [], [], [], true, 2⟩

instance : IsTotal (Nat × ℚ) (fun x y => y.2 ≤ x.2) :=
  ⟨fun a b => le_total b.2 a.2⟩

instance : IsTrans (Nat × ℚ) (fun x y => y.2 ≤ x.2) :=
  ⟨fun _ _ _ h1 h2 => le_trans h2 h1⟩

/-- A store whose `create_snapshot` always fails: a concrete instance of a
store call raising inside the transaction body. -/
def failDB : DB Unit where
  begin_transaction := fun s => .ok s
  get_or_create_organization := fun s org_id => .ok (org_id, s)
  get_assembly_by_id := fun s _ assembly_id => .ok (assembly_id, s)
  get_or_create_assembly := fun s _ _ => .ok (1, s)
  find_similar_parts := fun s _ _ _ _ => .ok ([], s)
  create_part := fun s _ _ _ => .ok (2, s)
  find_similar_bom_items := fun s _ _ _ _ => .ok ([], s)
  create_bom_item := fun s _ _ _ => .ok (3, s)
  create_snapshot := fun _ _ _ _ _ => .error (.dbError 7)
  insert_snapshot_item := fun s _ _ _ _ _ => .ok s
  commit_transaction := fun s => .ok s
  rollback_transaction := fun s => s

/-! ## Theorems -/

theorem canonicalizeAttrs_keys (m : AttrMap) :
    (canonicalizeAttrs m).map Prod.fst = m.map Prod.fst := by
  induction m with
  | nil => rfl
  | cons kv t ih => simp [canonicalizeAttrs, ih]

theorem sortByKey_eq_of_perm {l₁ l₂ : AttrMap} (hp : l₁.Perm l₂)
    (hnd : (l₁.map Prod.fst).Nodup) : sortByKey l₁ = sortByKey l₂ := by
  have p₁ := List.perm_insertionSort keyLe l₁
  have p₂ := List.perm_insertionSort keyLe l₂
  have hp' : (sortByKey l₁).Perm (sortByKey l₂) := p₁.trans (hp.trans p₂.symm)
  have strict : ∀ l : AttrMap, List.Sorted keyLe l → (l.map Prod.fst).Nodup →
      List.Sorted keyLt l := by
    intro l hs hn
    have hpn : l.Pairwise (fun p q => p.1 ≠ q.1) := List.pairwise_map.mp hn
    exact (hs.and hpn).imp (fun h => lt_of_le_of_ne h.1 h.2)
  have hnd₁ : ((sortByKey l₁).map Prod.fst).Nodup :=
    ((p₁.map Prod.fst).nodup_iff).mpr hnd
  have hnd₂ : ((sortByKey l₂).map Prod.fst).Nodup :=
    ((p₂.map Prod.fst).nodup_iff).mpr (((hp.map Prod.fst).nodup_iff).mp hnd)
  exact List.eq_of_perm_of_sorted hp'
    (strict _ (List.sorted_insertionSort keyLe l₁) hnd₁)
    (strict _ (List.sorted_insertionSort keyLe l₂) hnd₂)

theorem checksum_eq_of_sorted_eq {q : Option Int} {a b : AttrMap}
    (h : sortByKey (canonicalizeAttrs (_filter_semantic_attributes a)) =
         sortByKey (canonicalizeAttrs (_filter_semantic_attributes b))) :
    _compute_checksum q a = _compute_checksum q b := by
  unfold _compute_checksum checksumPayload
  rw [h]

theorem canonicalize_eq_of_wsValEq {v w : Value} (h : wsValEq v w) :
    _canonicalize_for_checksum v = _canonicalize_for_checksum w := by
  cases v <;> cases w <;>
    simp only [wsValEq] at h <;>
    first
      | rfl
      | (cases h <;> rfl)
      | simp [_canonicalize_for_checksum, h]

theorem canonicalizeAttrs_eq_of_forall₂ {a a' : AttrMap}
    (h : List.Forall₂ wsKvEq a a') : canonicalizeAttrs a = canonicalizeAttrs a' := by
  induction h with
  | nil => rfl
  | @cons x y tx ty hkv _ ih =>
    simp only [canonicalizeAttrs, List.map_cons] at ih ⊢
    rw [hkv.1, canonicalize_eq_of_wsValEq hkv.2]
    simpa [canonicalizeAttrs] using ih

theorem forall₂_filter_key {p : String → Bool} {a a' : AttrMap}
    (h : List.Forall₂ wsKvEq a a') :
    List.Forall₂ wsKvEq (a.filter (fun kv => p kv.1)) (a'.filter (fun kv => p kv.1)) := by
  induction h with
  | nil => simp
  | @cons x y tx ty hkv _ ih =>
    rw [List.filter_cons, List.filter_cons, hkv.1]
    by_cases hp : p y.1 = true
    · simpa [hp] using List.Forall₂.cons hkv ih
    · simpa [hp] using ih

theorem semFilter_forall₂ {a a' : AttrMap} (h : List.Forall₂ wsKvEq a a') :
    List.Forall₂ wsKvEq (_filter_semantic_attributes a) (_filter_semantic_attributes a') :=
  forall₂_filter_key (p := nonSemanticPred) h

theorem forall₂_keys_eq {a a' : AttrMap} (h : List.Forall₂ wsKvEq a a') :
    a.map Prod.fst = a'.map Prod.fst := by
  induction h with
  | nil => rfl
  | @cons x y tx ty hkv _ ih => simpa [hkv.1] using ih

theorem nonSemanticPred_false {k : String} (hk : k ∈ NON_SEMANTIC_ATTRIBUTE_KEYS) :
    nonSemanticPred k = false := by
  simp [nonSemanticPred, hk]

theorem semFilter_cons_nonsem {k : String} (hk : k ∈ NON_SEMANTIC_ATTRIBUTE_KEYS)
    (v : Value) (a : AttrMap) :
    _filter_semantic_attributes ((k, v) :: a) = _filter_semantic_attributes a := by
  simp [_filter_semantic_attributes, List.filter_cons, nonSemanticPred_false hk]

theorem semFilter_removeKey {k : String} (hk : k ∈ NON_SEMANTIC_ATTRIBUTE_KEYS)
    (a : AttrMap) :
    _filter_semantic_attributes (removeKey a k) = _filter_semantic_attributes a := by
  induction a with
  | nil => rfl
  | cons kv t ih =>
    by_cases hkey : kv.1 = k
    · have h1 : removeKey (kv :: t) k = removeKey t k := by
        simp [removeKey, List.filter_cons, hkey]
      have h2 : nonSemanticPred kv.1 = false := hkey ▸ nonSemanticPred_false hk
      rw [h1, ih]
      simp [_filter_semantic_attributes, List.filter_cons, h2]
    · have h1 : removeKey (kv :: t) k = kv :: removeKey t k := by
        simp [removeKey, List.filter_cons, hkey]
      rw [h1]
      simp only [_filter_semantic_attributes, List.filter_cons] at ih ⊢
      rw [ih]

theorem semFilter_setKeyValue {k : String} (hk : k ∈ NON_SEMANTIC_ATTRIBUTE_KEYS)
    (v : Value) (a : AttrMap) :
    _filter_semantic_attributes (setKeyValue a k v) = _filter_semantic_attributes a := by
  induction a with
  | nil => rfl
  | cons kv t ih =>
    simp only [setKeyValue, List.map_cons] at ih ⊢
    by_cases hkey : kv.1 = k
    · simp only [_filter_semantic_attributes, List.filter_cons] at ih ⊢
      simp [hkey, nonSemanticPred_false hk, ih]
    · simp only [_filter_semantic_attributes, List.filter_cons] at ih ⊢
      simp only [if_neg hkey]
      by_cases hsem : nonSemanticPred kv.1 = true
      · simp [hsem, ih]
      · simp only [Bool.not_eq_true] at hsem
        simp [hsem, ih]

theorem mem_lookup_getD {m : Buckets} {k : String} {y : Nat × SnapshotItemState}
    (hy : y ∈ ((m.lookup k).getD [])) : ∃ p ∈ m, y ∈ p.2 := by
  induction m with
  | nil => simp at hy
  | cons q rest ih =>
    obtain ⟨qk, ql⟩ := q
    by_cases hk : k == qk
    · refine ⟨(qk, ql), List.mem_cons_self _ _, ?_⟩
      simpa [List.lookup, hk] using hy
    · simp only [List.lookup, hk] at hy
      obtain ⟨p, hp, hyp⟩ := ih hy
      exact ⟨p, List.mem_cons_of_mem _ hp, hyp⟩

theorem bucketAdd_elem {m : Buckets} {k : String} {x y : Nat × SnapshotItemState}
    {p : String × List (Nat × SnapshotItemState)} (hp : p ∈ bucketAdd m k x)
    (hy : y ∈ p.2) : (∃ q ∈ m, y ∈ q.2) ∨ y = x := by
  unfold bucketAdd at hp
  by_cases hl : (m.lookup k).isSome
  · simp only [hl, if_true] at hp
    obtain ⟨q, hq, hpq⟩ := List.mem_map.mp hp
    by_cases hqk : q.1 = k
    · rw [if_pos hqk] at hpq
      subst hpq
      simp only at hy
      rcases List.mem_append.mp hy with h | h
      · exact .inl ⟨q, hq, h⟩
      · exact .inr (List.mem_singleton.mp h)
    · rw [if_neg hqk] at hpq
      subst hpq
      exact .inl ⟨q, hq, hy⟩
  · simp only [hl, if_false] at hp
    rcases List.mem_append.mp hp with h | h
    · exact .inl ⟨p, h, hy⟩
    · rw [List.mem_singleton.mp h] at hy
      exact .inr (List.mem_singleton.mp hy)

theorem buildBuckets_elem {f : SnapshotItemState → String}
    {st : List SnapshotItemState} {p : String × List (Nat × SnapshotItemState)}
    {y : Nat × SnapshotItemState} (hp : p ∈ buildBuckets st f) (hy : y ∈ p.2) :
    ∃ s ∈ st, y = (s.bom_item_id, s) := by
  suffices h : ∀ (l : List SnapshotItemState) (acc : Buckets),
      (∀ q ∈ acc, ∀ z ∈ q.2, ∃ s ∈ st, z = (s.bom_item_id, s)) →
      (∀ s ∈ l, s ∈ st) →
      ∀ q ∈ l.foldl (fun m s => bucketAdd m (f s) (s.bom_item_id, s)) acc,
      ∀ z ∈ q.2, ∃ s ∈ st, z = (s.bom_item_id, s) by
    exact h st [] (by simp) (fun s hs => hs) p hp y hy
  intro l
  induction l with
  | nil => intro acc hacc _ q hq z hz; exact hacc q hq z hz
  | cons s t ih =>
    intro acc hacc hl q hq z hz
    refine ih (bucketAdd acc (f s) (s.bom_item_id, s)) ?_
      (fun u hu => hl u (List.mem_cons_of_mem _ hu)) q hq z hz
    intro q' hq' z' hz'
    rcases bucketAdd_elem hq' hz' with ⟨r, hr, hzr⟩ | hz'
    · exact hacc r hr z' hzr
    · exact ⟨s, hl s (List.mem_cons_self _ _), hz'⟩

theorem semanticMatchLoop_nil {fuel : Nat} {ub : List (Nat × SnapshotItemState)}
    {acc : List (Nat × Nat)} : semanticMatchLoop fuel [] ub acc = acc := by
  cases fuel <;> simp [semanticMatchLoop]

theorem partMatchLoop_nil {fuel : Nat} {ub : List (Nat × SnapshotItemState)}
    {acc : List (Nat × Nat)} : partMatchLoop fuel [] ub acc = acc := by
  cases fuel <;> simp [partMatchLoop]

theorem matched_filter_nil {ba : Buckets} {ma : List Nat} {k : String}
    (ha : ∀ p ∈ ba, ∀ y ∈ p.2, ma.contains y.1 = true) :
    ((ba.lookup k).getD []).filter
      (fun (x : Nat × SnapshotItemState) => ¬ ma.contains x.1) = [] := by
  rw [List.filter_eq_nil_iff]
  intro x hx
  obtain ⟨p, hp, hxp⟩ := mem_lookup_getD hx
  have hmem := List.mem_of_elem_eq_true (ha p hp x hxp)
  simp [hmem]

theorem semanticTier_fixed {ba bb : Buckets} {ma mb : List Nat}
    {ps : List (Nat × Nat)}
    (ha : ∀ p ∈ ba, ∀ y ∈ p.2, ma.contains y.1 = true) :
    semanticTier ba bb (ma, mb, ps) = (ma, mb, ps) := by
  unfold semanticTier
  apply List.foldl_fixed'
  intro k
  simp only
  rw [matched_filter_nil ha]
  simp [semanticMatchLoop_nil]

theorem partTier_fixed {ba bb : Buckets} {ma mb : List Nat}
    {ps : List (Nat × Nat)}
    (ha : ∀ p ∈ ba, ∀ y ∈ p.2, ma.contains y.1 = true) :
    partTier ba bb (ma, mb, ps) = (ma, mb, ps) := by
  unfold partTier
  apply List.foldl_fixed'
  intro k
  simp only
  rw [matched_filter_nil ha]
  simp [partMatchLoop_nil]

/-- Claim C1 — checksum determinism.  (1) For every quantity and attribute map
with unique keys, reordering the map's entries leaves `_compute_checksum`
unchanged.  (2) Changing string attribute values only by whitespace (equal
`str.split()` word lists, pointwise) leaves the digest unchanged.  (3) Adding,
removing, or changing the value at any key of the non-semantic key set leaves
the digest unchanged. -/
theorem C1_checksum_determinism :
    (∀ (q : Option Int) (a a' : AttrMap), a.Perm a' → (a.map Prod.fst).Nodup →
      _compute_checksum q a = _compute_checksum q a') ∧
    (∀ (q : Option Int) (a a' : AttrMap), List.Forall₂ wsKvEq a a' →
      _compute_checksum q a = _compute_checksum q a') ∧
    (∀ (q : Option Int) (a : AttrMap) (k : String) (v : Value),
      k ∈ NON_SEMANTIC_ATTRIBUTE_KEYS →
      _compute_checksum q ((k, v) :: a) = _compute_checksum q a ∧
      _compute_checksum q (removeKey a k) = _compute_checksum q a ∧
      _compute_checksum q (setKeyValue a k v) = _compute_checksum q a) := by
  refine ⟨?_, ?_, ?_⟩
  · intro q a a' hperm hnd
    apply checksum_eq_of_sorted_eq
    apply sortByKey_eq_of_perm
    · simpa [canonicalizeAttrs, _filter_semantic_attributes] using
        ((hperm.filter _).map (fun kv => (kv.1, _canonicalize_for_checksum kv.2)))
    · rw [canonicalizeAttrs_keys]
      exact List.Nodup.sublist ((List.filter_sublist _).map Prod.fst) hnd
  · intro q a a' h
    apply checksum_eq_of_sorted_eq
    rw [canonicalizeAttrs_eq_of_forall₂ (semFilter_forall₂ h)]
  · intro q a k v hk
    refine ⟨?_, ?_, ?_⟩
    · exact checksum_eq_of_sorted_eq (by rw [semFilter_cons_nonsem hk])
    · exact checksum_eq_of_sorted_eq (by rw [semFilter_removeKey hk])
    · exact checksum_eq_of_sorted_eq (by rw [semFilter_setKeyValue hk])

/-- Witness for C1 at concrete inputs: a two-key map against its reversal, a
whitespace-variant string value, and a `row_index` entry added. -/
theorem C1_checksum_determinism_witness :
    _compute_checksum (some 5) [("b", .vInt 1), ("a", .vStr " x  y ")] =
      _compute_checksum (some 5) [("a", .vStr " x  y "), ("b", .vInt 1)] ∧
    _compute_checksum (some 5) [("a", .vStr " x  y ")] =
      _compute_checksum (some 5) [("a", .vStr "x y")] ∧
    _compute_checksum (some 5) [("row_index", .vInt 9), ("a", .vStr "x")] =
      _compute_checksum (some 5) [("a", .vStr "x")] :=
  ⟨C1_checksum_determinism.1 (some 5) _ _ (by decide) (by decide),
   C1_checksum_determinism.2.1 (some 5) _ _
     (List.Forall₂.cons ⟨rfl, (by decide : pySplit " x  y " = pySplit "x y")⟩
       List.Forall₂.nil),
   (C1_checksum_determinism.2.2 (some 5) [("a", .vStr "x")] "row_index" (.vInt 9)
     (by decide)).1⟩

theorem diff_snapshot_item_same_content {i₁ i₂ : Nat} {q : Option ℚ} {A : AttrMap}
    {c₁ c₂ : String} {p₁ p₂ : Option Nat} :
    diff_snapshot_item ⟨i₁, q, A, c₁, p₁⟩ ⟨i₂, q, A, c₂, p₂⟩ = [] := by
  unfold diff_snapshot_item
  simp only [ne_eq, not_true_eq_false, if_neg, ite_self]
  rw [List.filterMap_eq_nil_iff.mpr ?_]
  · simp
  · intro key _
    simp

theorem contains_self_filter (l : List Nat) :
    l.filter (fun i => l.contains i) = l :=
  List.filter_eq_self.mpr (fun i hi => by simpa using hi)

theorem buckets_all_matched {f : SnapshotItemState → String}
    {st : List SnapshotItemState} {ma : List Nat}
    (hsub : ∀ s ∈ st, s.bom_item_id ∈ ma) :
    ∀ p ∈ buildBuckets st f, ∀ y ∈ p.2, ma.contains y.1 = true := by
  intro p hp y hy
  obtain ⟨s, hs, rfl⟩ := buildBuckets_elem hp hy
  simpa using hsub s hs

/-- Claim C3 — self-diff is the identity: diffing any snapshot state against
itself yields no added, removed, or modified items and an unchanged count
equal to the number of items. -/
theorem C3_self_diff_identity (s : List SnapshotItemState) :
    diff_snapshots s s = ⟨[], [], [], s.length⟩ := by
  unfold diff_snapshots
  simp only
  rw [contains_self_filter]
  have hmatched : ∀ t ∈ s, t.bom_item_id ∈ s.map (·.bom_item_id) := by
    intro t ht
    exact List.mem_map.mpr ⟨t, ht, rfl⟩
  rw [semanticTier_fixed (buckets_all_matched hmatched),
      partTier_fixed (buckets_all_matched hmatched)]
  simp only
  have hfilter_none : (s.map (·.bom_item_id)).filter
      (fun i => ¬ (s.map (·.bom_item_id)).contains i) = [] := by
    rw [List.filter_eq_nil_iff]
    intro i hi
    simp [hi]
  rw [hfilter_none]
  have hmod : ((s.map (·.bom_item_id)).map (fun i => (i, i))).filterMap
      (fun p : Nat × Nat =>
        if (stateLookup s p.1).checksum ≠ (stateLookup s p.2).checksum then
          if (diff_snapshot_item (stateLookup s p.1) (stateLookup s p.2)).isEmpty
          then none
          else some (p.2, diff_snapshot_item (stateLookup s p.1) (stateLookup s p.2))
        else none) = [] := by
    rw [List.filterMap_eq_nil_iff]
    intro p hp
    obtain ⟨i, _, rfl⟩ := List.mem_map.mp hp
    simp
  rw [hmod]
  have hunch : ((s.map (·.bom_item_id)).map (fun i => (i, i))).filter
      (fun p : Nat × Nat =>
        (stateLookup s p.1).checksum = (stateLookup s p.2).checksum) =
      (s.map (·.bom_item_id)).map (fun i => (i, i)) := by
    apply List.filter_eq_self.mpr
    intro p hp
    obtain ⟨i, _, rfl⟩ := List.mem_map.mp hp
    simp
  rw [hunch]
  simp [sortNat]

/-- Claim C10 — a matched pair with equal semantic content but different stored
checksums is counted in neither `modified_items` (the field diff is empty) nor
`unchanged_count` (the checksums differ), so the four result counts sum to
strictly less than the number of items. -/
theorem C10_modified_unchanged_gap (i : Nat) (q : Option ℚ) (A : AttrMap)
    (c₁ c₂ : String) (p : Option Nat) (hne : c₁ ≠ c₂) :
    diff_snapshots [⟨i, q, A, c₁, p⟩] [⟨i, q, A, c₂, p⟩] = ⟨[], [], [], 0⟩ ∧
    (diff_snapshots [⟨i, q, A, c₁, p⟩] [⟨i, q, A, c₂, p⟩]).added_items.length +
      (diff_snapshots [⟨i, q, A, c₁, p⟩] [⟨i, q, A, c₂, p⟩]).removed_items.length +
      (diff_snapshots [⟨i, q, A, c₁, p⟩] [⟨i, q, A, c₂, p⟩]).modified_items.length +
      (diff_snapshots [⟨i, q, A, c₁, p⟩] [⟨i, q, A, c₂, p⟩]).unchanged_count <
      ([⟨i, q, A, c₁, p⟩] : List SnapshotItemState).length := by
  have hmain : diff_snapshots [⟨i, q, A, c₁, p⟩] [⟨i, q, A, c₂, p⟩] =
      ⟨[], [], [], 0⟩ := by
    unfold diff_snapshots
    simp only
    have hsubA : ∀ t ∈ ([⟨i, q, A, c₁, p⟩] : List SnapshotItemState),
        t.bom_item_id ∈ ([⟨i, q, A, c₁, p⟩] : List SnapshotItemState).map
          (·.bom_item_id) := by
      intro t ht
      exact List.mem_map.mpr ⟨t, ht, rfl⟩
    have hcommon : (([⟨i, q, A, c₁, p⟩] : List SnapshotItemState).map
        (·.bom_item_id)).filter
        (fun j => (([⟨i, q, A, c₂, p⟩] : List SnapshotItemState).map
          (·.bom_item_id)).contains j) = [i] := by
      simp
    rw [hcommon]
    rw [semanticTier_fixed (buckets_all_matched
          (by intro t ht; simp at ht; simp [ht])),
        partTier_fixed (buckets_all_matched
          (by intro t ht; simp at ht; simp [ht]))]
    simp only
    have hlookup₁ : stateLookup [⟨i, q, A, c₁, p⟩] i = ⟨i, q, A, c₁, p⟩ := by
      simp [stateLookup, List.find?]
    have hlookup₂ : stateLookup [⟨i, q, A, c₂, p⟩] i = ⟨i, q, A, c₂, p⟩ := by
      simp [stateLookup, List.find?]
    simp [hlookup₁, hlookup₂, hne, diff_snapshot_item_same_content, sortNat]
  exact ⟨hmain, by simp [hmain]⟩

/-- Witness for C10 at a concrete state pair: same usage id, quantity and
attributes, stored checksums `"a"` and `"b"`. -/
theorem C10_modified_unchanged_gap_witness :
    diff_snapshots [⟨7, some 5, [("value", .vStr "10k")], "a", some 3⟩]
      [⟨7, some 5, [("value", .vStr "10k")], "b", some 3⟩] = ⟨[], [], [], 0⟩ :=
  (C10_modified_unchanged_gap 7 (some 5) [("value", .vStr "10k")] "a" "b" (some 3)
    (by decide)).1

/-- Claim C2 — code bug.  Adding `row_index` alone never affects checksum or
diff (that key is in the non-semantic set; see C1), but the aggregation step
stores the accumulated contributing-row-index list under the key
`"row_indices"`, which is NOT in `NON_SEMANTIC_ATTRIBUTE_KEYS`: aggregating
two rows of one usage materializes `row_indices = [0, 1]` in the persisted
attributes, that key survives `_filter_semantic_attributes`, it changes the
computed checksum, and `diff_snapshot_item` emits it as a `FieldChange` —
contradicting the source's own comment that row-index tracking "will be
filtered from checksums/diffs". -/
theorem C2_row_indices_reach_checksum_and_diff :
    aggregateMappings [(5, ⟨"r1", some 1, [], [], 0⟩), (5, ⟨"r1", some 2, [], [], 1⟩)] =
      [(5, ⟨3, [("row_index", .vInt 0), ("row_indices", .vList [0, 1])], [0, 1]⟩)] ∧
    ¬ "row_indices" ∈ NON_SEMANTIC_ATTRIBUTE_KEYS ∧
    _filter_semantic_attributes [("row_index", .vInt 0), ("row_indices", .vList [0, 1])] =
      [("row_indices", .vList [0, 1])] ∧
    _compute_checksum (some 3) [("row_index", .vInt 0), ("row_indices", .vList [0, 1])] ≠
      _compute_checksum (some 3) [("row_index", .vInt 0)] ∧
    diff_snapshot_item
      ⟨7, some 3, [("row_index", .vInt 0), ("row_indices", .vList [0, 1])], "c1", some 1⟩
      ⟨7, some 3, [("row_index", .vInt 2), ("row_indices", .vList [0, 2])], "c2", some 1⟩ =
      [⟨"ATTRIBUTE_CHANGED", some "row_indices", .val (.vList [0, 1]), .val (.vList [0, 2])⟩] := by
  refine ⟨by decide, by decide, by decide, by decide, by decide⟩

/-- Counterexample to C8 as stated: a delta with `added`, `manufacturer_changed`
and `mpn_changed` all set classifies as `PART_ADDED` (rule 1 precedes the
substitution rule), not `PART_SUBSTITUTED`. -/
theorem C8_substitution_precedence_counterexample :
    (_classify_delta ⟨1, none, true, false, false, true, true, false, [], [], none,
      none⟩).map (fun e => e.event_type) = some .PART_ADDED ∧
    ChangeEventType.PART_ADDED ≠ ChangeEventType.PART_SUBSTITUTED := by
  refine ⟨by decide, by decide⟩

/-- Claim C8, amended — substitution rule precedence: for every `ItemDelta`
with both `manufacturer_changed` and `mpn_changed` set and neither existence
flag (`added`/`removed`) set, classification produces a `PART_SUBSTITUTED`
event with HIGH severity — never `MANUFACTURER_CHANGED` or
`SPEC_ATTRIBUTE_CHANGED` — whatever other field-change flags are set. -/
theorem C8_substitution_precedence (d : ItemDelta)
    (hman : d.manufacturer_changed = true) (hmpn : d.mpn_changed = true)
    (hadd : d.added = false) (hrem : d.removed = false) :
    ∃ ev, _classify_delta d = some ev ∧
      ev.event_type = .PART_SUBSTITUTED ∧ ev.severity = .HIGH ∧
      ev.event_type ≠ .MANUFACTURER_CHANGED ∧
      ev.event_type ≠ .SPEC_ATTRIBUTE_CHANGED := by
  refine ⟨⟨d.bom_item_id, d.part_id, .PART_SUBSTITUTED, .HIGH,
    [.PROCUREMENT, .ENGINEERING], d.field_changes,
    "Part substituted (different manufacturer and MPN)", some d⟩,
    ?_, rfl, rfl, by simp, by simp⟩
  simp [_classify_delta, CLASSIFICATION_RULES, firstRuleHit,
    ItemDelta.has_any_change, hman, hmpn, hadd, hrem,
    _classify_added, _classify_removed, _classify_substituted]

/-- Witness for the amended C8: a delta that also has quantity, refdes and spec
flags set still classifies as `PART_SUBSTITUTED`. -/
theorem C8_substitution_precedence_witness :
    ∃ ev, _classify_delta ⟨1, none, false, false, true, true, true, true,
      ["value"], [], some 1, some 2⟩ = some ev ∧
      ev.event_type = .PART_SUBSTITUTED ∧ ev.severity = .HIGH ∧
      ev.event_type ≠ .MANUFACTURER_CHANGED ∧
      ev.event_type ≠ .SPEC_ATTRIBUTE_CHANGED :=
  C8_substitution_precedence _ rfl rfl rfl rfl

theorem lookup_append_ne {m : AttrMap} {k k' : String} {v : Value} (h : k ≠ k') :
    (m ++ [(k', v)]).lookup k = m.lookup k := by
  have hb : (k == k') = false := beq_eq_false_iff_ne.mpr h
  induction m with
  | nil => simp [List.lookup, hb]
  | cons kv t ih =>
    obtain ⟨kk, kvv⟩ := kv
    by_cases hk : (k == kk) = true
    · simp [List.lookup, hk]
    · rw [Bool.not_eq_true] at hk
      simp [List.lookup, hk, ih]

theorem lookup_map_set_ne {t : AttrMap} {k k' : String} {v : Value} (h : k ≠ k') :
    (t.map (fun p => if p.1 = k' then (k', v) else p)).lookup k = t.lookup k := by
  induction t with
  | nil => rfl
  | cons kv t ih =>
    obtain ⟨kk, kvv⟩ := kv
    by_cases hkk : kk = k'
    · subst hkk
      have hb : (k == kk) = false := beq_eq_false_iff_ne.mpr h
      have hhead : (if ((kk, kvv) : String × Value).1 = kk then (kk, v) else (kk, kvv)) =
          (kk, v) := if_pos rfl
      simp only [List.map_cons, hhead]
      simp [List.lookup, hb, ih]
    · have hhead : (if ((kk, kvv) : String × Value).1 = k' then (k', v) else (kk, kvv)) =
          (kk, kvv) := if_neg hkk
      simp only [List.map_cons, hhead]
      by_cases hk : (k == kk) = true
      · simp [List.lookup, hk]
      · rw [Bool.not_eq_true] at hk
        simp [List.lookup, hk, ih]

theorem lookup_pyDictSet_ne {m : AttrMap} {k k' : String} {v : Value}
    (h : k ≠ k') : (pyDictSet m k' v).lookup k = m.lookup k := by
  unfold pyDictSet
  by_cases hs : (m.lookup k').isSome
  · simp only [hs, if_true]
    exact lookup_map_set_ne h
  · simp only [hs, if_false]
    exact lookup_append_ne h

/-- Counterexample to C7 as stated: aggregating two rows of one usage whose
reference designators are `"R1"` and `"R2"` keeps only `"R1"` — the second
designator is discarded, not accumulated (the source's merge loop has
`elif key == 'reference_designator': pass`, keeping the first). -/
theorem C7_refdes_accumulation_counterexample :
    aggregateMappings
      [(5, ⟨"r1", some 1, [], [("reference_designator", .vStr "R1")], 0⟩),
       (5, ⟨"r1", some 2, [], [("reference_designator", .vStr "R2")], 1⟩)] =
      [(5, ⟨3, [("reference_designator", .vStr "R1"), ("row_index", .vInt 0),
        ("row_indices", .vList [0, 1])], [0, 1]⟩)] ∧
    ((aggregateMappings
      [(5, ⟨"r1", some 1, [], [("reference_designator", .vStr "R1")], 0⟩),
       (5, ⟨"r1", some 2, [], [("reference_designator", .vStr "R2")], 1⟩)]).map
        (fun p => p.2.attributes.lookup "reference_designator") =
      [some (.vStr "R1")]) := by
  refine ⟨by decide, by decide⟩

/-- One merge step never touches a truthy stored `reference_designator`:
row-index bookkeeping only writes `row_indices`, a fresh key appends, a falsy
existing value is overwritten (but the designator is truthy), and everything
else — including an incoming designator — leaves the map unchanged. -/
theorem merge_preserves_refdes {idxs : List Int} {ri : Int} {m : AttrMap}
    {kv : String × Value} {v₁ : Value}
    (hm : m.lookup "reference_designator" = some v₁) (hv : pyTruthy v₁ = true) :
    (mergeSnapshotAttr idxs ri m kv).lookup "reference_designator" = some v₁ := by
  unfold mergeSnapshotAttr
  by_cases hri : kv.1 = "row_index"
  · simp only [hri, if_true]
    match hrl : m.lookup "row_indices" with
    | none =>
      simp only
      rw [lookup_append_ne (by decide)]
      exact hm
    | some (.vList l) =>
      by_cases hc : ri ∈ l
      · simp [hc, hm]
      · simp [hc, lookup_pyDictSet_ne
          (show "reference_designator" ≠ "row_indices" by decide), hm]
    | some (.vStr s) => simpa using hm
    | some (.vInt n) => simpa using hm
    | some .vNone => simpa using hm
  · simp only [hri, if_false]
    by_cases hhas : pyDictHas m kv.1
    · simp only [hhas]
      by_cases htr : pyTruthy (pyDictGet m kv.1)
      · simp [htr, hm]
      · have hne : kv.1 ≠ "reference_designator" := by
          intro hkk
          rw [hkk] at htr
          exact htr (by simp [pyDictGet, hm, hv])
        simp [hhas, htr, lookup_pyDictSet_ne (Ne.symm hne), hm]
    · have hne : kv.1 ≠ "reference_designator" := by
        intro hkk
        rw [hkk] at hhas
        exact hhas (by simp [pyDictHas, hm])
      simp [hhas, lookup_append_ne (Ne.symm hne), hm]

theorem merge_foldl_preserves_refdes {idxs : List Int} {ri : Int} {v₁ : Value}
    (hv : pyTruthy v₁ = true) (kvs : List (String × Value)) :
    ∀ m : AttrMap, m.lookup "reference_designator" = some v₁ →
    (kvs.foldl (mergeSnapshotAttr idxs ri) m).lookup "reference_designator" = some v₁ := by
  induction kvs with
  | nil => intro m hm; exact hm
  | cons kv t ih =>
    intro m hm
    exact ih _ (merge_preserves_refdes hm hv)

/-- Claim C7, amended — when two rows share one usage and the first row carries
a (truthy) reference designator, the merged snapshot attributes keep exactly
the first row's designator; a later row's designator is discarded rather than
accumulated. -/
theorem C7_refdes_kept_first (u : Nat) (r₁ r₂ : NormalizedRow)
    (h₁ : pyTruthy (pyDictGet r₁.context "reference_designator") = true) :
    (aggregateMappings [(u, r₁), (u, r₂)]).map
      (fun p => (p.1, p.2.attributes.lookup "reference_designator")) =
      [(u, some (pyDictGet r₁.context "reference_designator"))] := by
  have hstep₁ : aggStep [] u r₁ =
      [(u, ⟨r₁.quantity.getD 0, _extract_snapshot_attributes r₁, [r₁.row_index]⟩)] := by
    simp [aggStep]
  have hext : (_extract_snapshot_attributes r₁).lookup "reference_designator" =
      some (pyDictGet r₁.context "reference_designator") := by
    simp [_extract_snapshot_attributes, pickTruthy, h₁, List.lookup]
  obtain ⟨q₂, idx₂, hstep₂⟩ : ∃ q idx,
      aggStep [(u, ⟨r₁.quantity.getD 0, _extract_snapshot_attributes r₁,
        [r₁.row_index]⟩)] u r₂ =
      [(u, ⟨q, (_extract_snapshot_attributes r₂).foldl
        (mergeSnapshotAttr [r₁.row_index] r₂.row_index)
        (_extract_snapshot_attributes r₁), idx⟩)] := by
    refine ⟨(match r₂.quantity with
      | some q => r₁.quantity.getD 0 + q
      | none => r₁.quantity.getD 0), [r₁.row_index] ++ [r₂.row_index], ?_⟩
    unfold aggStep
    rw [show List.lookup u [(u, (⟨r₁.quantity.getD 0, _extract_snapshot_attributes r₁,
        [r₁.row_index]⟩ : AggEntry))] =
      some ⟨r₁.quantity.getD 0, _extract_snapshot_attributes r₁, [r₁.row_index]⟩
      from by simp [List.lookup]]
    simp
  simp only [aggregateMappings, List.foldl_cons, List.foldl_nil, hstep₁, hstep₂]
  simp only [List.map_cons, List.map_nil]
  rw [merge_foldl_preserves_refdes h₁ (_extract_snapshot_attributes r₂)
    (_extract_snapshot_attributes r₁) hext]

/-- Witness for the amended C7: designators `"R1"` then `"R2"` merge to `"R1"`. -/
theorem C7_refdes_kept_first_witness :
    (aggregateMappings
      [(5, ⟨"r1", some 1, [], [("reference_designator", .vStr "R1")], 0⟩),
       (5, ⟨"r1", some 2, [], [("reference_designator", .vStr "R2")], 1⟩)]).map
      (fun p => (p.1, p.2.attributes.lookup "reference_designator")) =
      [(5, some (.vStr "R1"))] := by
  have h := C7_refdes_kept_first 5
    ⟨"r1", some 1, [], [("reference_designator", .vStr "R1")], 0⟩
    ⟨"r1", some 2, [], [("reference_designator", .vStr "R2")], 1⟩ (by decide)
  simpa using h

theorem aggStep_same_key (u : Nat) (e : AggEntry) (r : NormalizedRow) :
    ∃ attrs idxs, aggStep [(u, e)] u r =
      [(u, ⟨e.quantity + r.quantity.getD 0, attrs, idxs⟩)] := by
  refine ⟨(_extract_snapshot_attributes r).foldl
    (mergeSnapshotAttr e.row_indices r.row_index) e.attributes,
    e.row_indices ++ [r.row_index], ?_⟩
  unfold aggStep
  rw [show List.lookup u [(u, e)] = some e from by simp [List.lookup]]
  cases hq : r.quantity with
  | none => simp [hq]
  | some q => simp [hq]

theorem foldl_agg_quantity (u : Nat) (rows : List NormalizedRow) :
    ∀ e : AggEntry, ∃ attrs idxs,
      (rows.map (fun r => (u, r))).foldl (fun m br => aggStep m br.1 br.2) [(u, e)] =
      [(u, ⟨e.quantity + (rows.map (fun r => r.quantity.getD 0)).sum, attrs, idxs⟩)] := by
  induction rows with
  | nil => intro e; exact ⟨e.attributes, e.row_indices, by simp⟩
  | cons r t ih =>
    intro e
    obtain ⟨a₁, i₁, h₁⟩ := aggStep_same_key u e r
    obtain ⟨a₂, i₂, h₂⟩ := ih ⟨e.quantity + r.quantity.getD 0, a₁, i₁⟩
    refine ⟨a₂, i₂, ?_⟩
    simp only [List.map_cons, List.foldl_cons, h₁]
    rw [h₂]
    simp [add_assoc]

/-- Claim C6, amended — aggregation of rows sharing one usage id produces
exactly one aggregated entry whose running quantity is the sum of the rows'
quantities (`None` counting as 0), and the quantity persisted to the
SnapshotItem is that sum when it is positive and `None` otherwise
(`aggregated['quantity'] if aggregated['quantity'] > 0 else None`). -/
theorem C6_aggregation_sums_quantities (u : Nat) (rows : List NormalizedRow)
    (h : rows ≠ []) :
    ∃ e : AggEntry,
      aggregateMappings (rows.map (fun r => (u, r))) = [(u, e)] ∧
      e.quantity = (rows.map (fun r => r.quantity.getD 0)).sum ∧
      persistedQuantity e =
        (if 0 < (rows.map (fun r => r.quantity.getD 0)).sum then
          some ((rows.map (fun r => r.quantity.getD 0)).sum) else none) := by
  match rows, h with
  | r :: t, _ =>
    obtain ⟨a₂, i₂, h₂⟩ := foldl_agg_quantity u t
      ⟨r.quantity.getD 0, _extract_snapshot_attributes r, [r.row_index]⟩
    refine ⟨⟨r.quantity.getD 0 + (t.map (fun r => r.quantity.getD 0)).sum, a₂, i₂⟩,
      ?_, by simp, by simp [persistedQuantity]⟩
    simp only [aggregateMappings, List.map_cons, List.foldl_cons]
    rw [show aggStep [] u r =
      [(u, ⟨r.quantity.getD 0, _extract_snapshot_attributes r, [r.row_index]⟩)]
      from by simp [aggStep]]
    exact h₂

/-- Counterexample to C6 as stated: two rows of one usage with numeric
quantities `[0, 0]` sum to 0, but the persisted quantity is `None`, not the
sum `0` (the source guards `aggregated['quantity'] > 0`). -/
theorem C6_aggregation_counterexample :
    (aggregateMappings
      [(5, ⟨"r1", some 0, [], [], 0⟩), (5, ⟨"r1", some 0, [], [], 1⟩)]).map
      (fun p => (p.1, persistedQuantity p.2)) = [(5, none)] ∧
    some (0 : Int) ≠ (none : Option Int) := by
  refine ⟨by decide, by decide⟩

/-- Witness for the amended C6 at the spec's scenario: quantities `[1, 2, 3]`
aggregate to one entry persisted with quantity 6. -/
theorem C6_aggregation_sums_quantities_witness :
    ∃ e : AggEntry,
      aggregateMappings
        ([⟨"r1", some 1, [], [], 0⟩, ⟨"r1", some 2, [], [], 1⟩,
          (⟨"r1", some 3, [], [], 2⟩ : NormalizedRow)].map (fun r => (5, r))) =
        [(5, e)] ∧
      e.quantity = 6 ∧ persistedQuantity e = some 6 := by
  obtain ⟨e, h₁, h₂, h₃⟩ := C6_aggregation_sums_quantities 5
    [⟨"r1", some 1, [], [], 0⟩, ⟨"r1", some 2, [], [], 1⟩,
     ⟨"r1", some 3, [], [], 2⟩] (by decide)
  exact ⟨e, h₁, by simpa using h₂, by rw [h₃]; decide⟩

/-- Claim C4 — ingestion validation fails fast: for empty rows, or when both or
neither of assembly_id / assembly_name is supplied, `ingest_bom_snapshot`
raises a `ValueError` with the store state unchanged and an empty call trace —
no store method is invoked and no transaction is begun. -/
theorem C4_validation_fails_fast {σ : Type} (db : DB σ) (org_id : Nat)
    (rows : List NormalizedRow) (assembly_id : Option Nat)
    (assembly_name : Option String) (parent : Option Nat) (s : σ)
    (h : rows = [] ∨ (assembly_id = none ∧ assembly_name = none) ∨
         (assembly_id ≠ none ∧ assembly_name ≠ none)) :
    ∃ msg, ingest_bom_snapshot db org_id rows assembly_id assembly_name parent s =
      (.error (.valueError msg), s, []) := by
  rcases h with h | ⟨h1, h2⟩ | ⟨h1, h2⟩
  · subst h
    exact ⟨"Cannot ingest empty BOM snapshot", by simp [ingest_bom_snapshot]⟩
  · subst h1; subst h2
    cases rows with
    | nil =>
      exact ⟨"Cannot ingest empty BOM snapshot", by simp [ingest_bom_snapshot]⟩
    | cons r t =>
      exact ⟨"Must provide either assembly_id or assembly_name, but not both.",
        by simp [ingest_bom_snapshot]⟩
  · match assembly_id, h1 with
    | some aid, _ =>
      match assembly_name, h2 with
      | some aname, _ =>
        cases rows with
        | nil =>
          exact ⟨"Cannot ingest empty BOM snapshot", by simp [ingest_bom_snapshot]⟩
        | cons r t =>
          exact ⟨"Cannot provide both assembly_id and assembly_name.",
            by simp [ingest_bom_snapshot]⟩

/-- Witness for C4: empty rows against the in-memory store model. -/
theorem C4_validation_fails_fast_witness :
    ∃ msg, ingest_bom_snapshot supaDB 100 [] none (some "Board") none
      emptySupaState = (.error (.valueError msg), emptySupaState, []) :=
  C4_validation_fails_fast supaDB 100 [] none (some "Board") none emptySupaState
    (Or.inl rfl)

/-- Claim C5 — atomicity on failure: when validation passes, the transaction is
begun, and the transaction body (store calls up to and including commit) fails
with any exception `e`, then `ingest_bom_snapshot` returns exactly `e`
(re-raised unchanged, never wrapped), the final store state is
`rollback_transaction` applied to the state at the failure point (nothing
committed), and the call trace is the body's trace followed by the rollback
call. -/
theorem C5_rollback_and_reraise {σ : Type} (db : DB σ) (org_id : Nat)
    (rows : List NormalizedRow) (assembly_id : Option Nat)
    (assembly_name : Option String) (parent : Option Nat) (s s1 s2 : σ)
    (e : PyErr) (tr : List DbCall)
    (hrows : rows ≠ [])
    (hargs : (assembly_id = none ∧ assembly_name ≠ none) ∨
             (assembly_id ≠ none ∧ assembly_name = none))
    (hbegin : db.begin_transaction s = .ok s1)
    (hbody : ingestBody db org_id rows assembly_id assembly_name parent s1
      [.beginTransaction] = (.error e, s2, tr)) :
    ingest_bom_snapshot db org_id rows assembly_id assembly_name parent s =
      (.error e, db.rollback_transaction s2, tr ++ [.rollbackTransaction]) := by
  match rows, hrows with
  | r :: t, _ =>
    rcases hargs with ⟨h1, h2⟩ | ⟨h1, h2⟩
    · subst h1
      match assembly_name, h2 with
      | some aname, _ =>
        simp [ingest_bom_snapshot, hbegin, hbody]
    · subst h2
      match assembly_id, h1 with
      | some aid, _ =>
        simp [ingest_bom_snapshot, hbegin, hbody]

/-- Witness for C5: one row against `failDB`, whose `create_snapshot` raises
`dbError 7`; ingestion re-raises it after rolling back, having never reached
the commit call. -/
theorem C5_rollback_and_reraise_witness :
    ingest_bom_snapshot failDB 100 [⟨"r1", some 1, [], [], 0⟩] none
      (some "Board") none () =
      (.error (.dbError 7), (),
       [.beginTransaction, .getOrCreateOrganization, .getOrCreateAssembly,
        .findSimilarParts, .createPart, .findSimilarBomItems, .createBomItem,
        .createSnapshot] ++ [.rollbackTransaction]) :=
  C5_rollback_and_reraise failDB 100 [⟨"r1", some 1, [], [], 0⟩] none
    (some "Board") none () () () (.dbError 7)
    [.beginTransaction, .getOrCreateOrganization, .getOrCreateAssembly,
     .findSimilarParts, .createPart, .findSimilarBomItems, .createBomItem,
     .createSnapshot]
    (by decide) (Or.inl ⟨rfl, by decide⟩) rfl rfl

theorem sortByScoreDesc_perm (l : List (Nat × ℚ)) : (sortByScoreDesc l).Perm l :=
  List.perm_insertionSort _ l

theorem sortByScoreDesc_sorted (l : List (Nat × ℚ)) :
    List.Sorted (fun x y => y.2 ≤ x.2) (sortByScoreDesc l) :=
  List.sorted_insertionSort _ l

theorem resolve_part_eval (st : SupaState) (org : Nat) (row : NormalizedRow) :
    _resolve_or_create_part supaDB org row st [] =
      (match supaFindSimilarParts st org row.part_name
          (_extract_part_attributes row) 0.8 with
       | (best, _) :: _ => (.ok best, st, [.findSimilarParts])
       | [] => (.ok st.next_id, supaCreatePartState st org row,
           [.findSimilarParts, .createPart])) := by
  cases hm : supaFindSimilarParts st org row.part_name
      (_extract_part_attributes row) 0.8 with
  | nil =>
    unfold _resolve_or_create_part
    simp only [IngM.bind, callDB]
    rw [show supaDB.find_similar_parts st org row.part_name
        (_extract_part_attributes row) 0.8 =
      .ok (supaFindSimilarParts st org row.part_name
        (_extract_part_attributes row) 0.8, st) from rfl]
    rw [hm]
    rfl
  | cons hd tl =>
    obtain ⟨pid, sc⟩ := hd
    unfold _resolve_or_create_part
    simp only [IngM.bind, callDB]
    rw [show supaDB.find_similar_parts st org row.part_name
        (_extract_part_attributes row) 0.8 =
      .ok (supaFindSimilarParts st org row.part_name
        (_extract_part_attributes row) 0.8, st) from rfl]
    rw [hm]
    rfl

/-- Claim C9 — part resolution threshold over the Supabase store model:
`_resolve_or_create_part` reuses an existing Part if and only if some Part of
the organization attains combined score
`0.6 * name_similarity + 0.4 * attribute_similarity ≥ 0.8` against the row
(with `_jsonb_similarity`'s exact/0.8-partial credit over the key union); the
reused Part is a highest-scoring one and the store is unchanged; otherwise a
new Part is created with the row's name and extracted attributes. -/
theorem C9_part_resolution_threshold (st : SupaState) (org : Nat)
    (row : NormalizedRow) :
    ((∃ c ∈ st.parts, c.org_id = org ∧
        (0.8 : ℚ) ≤ partScore row.part_name (_extract_part_attributes row) c) →
      ∃ c ∈ st.parts, c.org_id = org ∧
        (0.8 : ℚ) ≤ partScore row.part_name (_extract_part_attributes row) c ∧
        _resolve_or_create_part supaDB org row st [] =
          (.ok c.id, st, [.findSimilarParts]) ∧
        ∀ c' ∈ st.parts, c'.org_id = org →
          partScore row.part_name (_extract_part_attributes row) c' ≤
          partScore row.part_name (_extract_part_attributes row) c) ∧
    ((¬ ∃ c ∈ st.parts, c.org_id = org ∧
        (0.8 : ℚ) ≤ partScore row.part_name (_extract_part_attributes row) c) →
      _resolve_or_create_part supaDB org row st [] =
        (.ok st.next_id, supaCreatePartState st org row,
         [.findSimilarParts, .createPart])) := by
  constructor
  · rintro ⟨c0, hc0, horg0, hsc0⟩
    have hmem0 : (c0.id, partScore row.part_name (_extract_part_attributes row) c0) ∈
        (st.parts.filter (fun p => p.org_id = org)).filterMap (fun c =>
          if (0.8 : ℚ) ≤ partScore row.part_name (_extract_part_attributes row) c
          then some (c.id, partScore row.part_name (_extract_part_attributes row) c)
          else none) := by
      apply List.mem_filterMap.mpr
      exact ⟨c0, List.mem_filter.mpr ⟨hc0, by simp [horg0]⟩, by rw [if_pos hsc0]⟩
    have hperm : (supaFindSimilarParts st org row.part_name
        (_extract_part_attributes row) 0.8).Perm
        ((st.parts.filter (fun p => p.org_id = org)).filterMap (fun c =>
          if (0.8 : ℚ) ≤ partScore row.part_name (_extract_part_attributes row) c
          then some (c.id, partScore row.part_name (_extract_part_attributes row) c)
          else none)) := sortByScoreDesc_perm _
    have hmemS : (c0.id, partScore row.part_name (_extract_part_attributes row) c0) ∈
        supaFindSimilarParts st org row.part_name (_extract_part_attributes row) 0.8 :=
      (hperm.mem_iff).mpr hmem0
    obtain ⟨hd, tl, hm⟩ := List.exists_cons_of_ne_nil
      (List.ne_nil_of_mem hmemS)
    have hhd : hd ∈ (st.parts.filter (fun p => p.org_id = org)).filterMap (fun c =>
        if (0.8 : ℚ) ≤ partScore row.part_name (_extract_part_attributes row) c
        then some (c.id, partScore row.part_name (_extract_part_attributes row) c)
        else none) := by
      apply (hperm.mem_iff).mp
      rw [hm]
      exact List.mem_cons_self hd tl
    obtain ⟨c, hcmem, hcif⟩ := List.mem_filterMap.mp hhd
    have hcparts : c ∈ st.parts := (List.mem_filter.mp hcmem).1
    have hcorg : c.org_id = org := by
      have := (List.mem_filter.mp hcmem).2
      simpa using this
    by_cases hth : (0.8 : ℚ) ≤ partScore row.part_name (_extract_part_attributes row) c
    · rw [if_pos hth] at hcif
      have hde : (c.id, partScore row.part_name (_extract_part_attributes row) c) = hd :=
        Option.some.inj hcif
      have hd1 : hd.1 = c.id := by rw [← hde]
      have hd2 : hd.2 = partScore row.part_name (_extract_part_attributes row) c := by
        rw [← hde]
      refine ⟨c, hcparts, hcorg, hth, ?_, ?_⟩
      · rw [resolve_part_eval, hm]
        obtain ⟨p1, p2⟩ := hd
        simp only at hd1
        rw [hd1]
      · intro c' hc' horg'
        by_cases h' : (0.8 : ℚ) ≤ partScore row.part_name (_extract_part_attributes row) c'
        · have hmem' : (c'.id, partScore row.part_name (_extract_part_attributes row) c') ∈
              supaFindSimilarParts st org row.part_name (_extract_part_attributes row) 0.8 := by
            apply (hperm.mem_iff).mpr
            apply List.mem_filterMap.mpr
            exact ⟨c', List.mem_filter.mpr ⟨hc', by simp [horg']⟩, by rw [if_pos h']⟩
          rw [hm] at hmem'
          rcases List.mem_cons.mp hmem' with heq | htl
          · have hsc : partScore row.part_name (_extract_part_attributes row) c' = hd.2 := by
              rw [← heq]
            rw [hsc, hd2]
          · have hsorted : List.Sorted (fun x y => y.2 ≤ x.2)
                (supaFindSimilarParts st org row.part_name
                  (_extract_part_attributes row) 0.8) := sortByScoreDesc_sorted _
            rw [hm] at hsorted
            have := List.rel_of_sorted_cons hsorted _ htl
            calc partScore row.part_name (_extract_part_attributes row) c'
                = (c'.id, partScore row.part_name (_extract_part_attributes row) c').2 := rfl
              _ ≤ hd.2 := this
              _ = partScore row.part_name (_extract_part_attributes row) c := hd2
        · exact le_trans (le_of_lt (lt_of_not_le h')) hth
    · rw [if_neg hth] at hcif
      cases hcif
  · intro hnone
    have hfm : (st.parts.filter (fun p => p.org_id = org)).filterMap (fun c =>
        if (0.8 : ℚ) ≤ partScore row.part_name (_extract_part_attributes row) c
        then some (c.id, partScore row.part_name (_extract_part_attributes row) c)
        else none) = [] := by
      apply List.filterMap_eq_nil_iff.mpr
      intro c hcmem
      have hcparts : c ∈ st.parts := (List.mem_filter.mp hcmem).1
      have hcorg : c.org_id = org := by
        have := (List.mem_filter.mp hcmem).2
        simpa using this
      rw [if_neg]
      intro hth
      exact hnone ⟨c, hcparts, hcorg, hth⟩
    have hm : supaFindSimilarParts st org row.part_name
        (_extract_part_attributes row) 0.8 = [] := by
      unfold supaFindSimilarParts
      rw [hfm]
      rfl
    rw [resolve_part_eval, hm]

/-- Witness for C9: an organization with one part identical to the row (score
1 ≥ 0.8) is reused with the store unchanged. -/
theorem C9_part_resolution_threshold_witness :
    ∃ c ∈ onePartState.parts, c.org_id = 100 ∧
      (0.8 : ℚ) ≤ partScore "r1" (_extract_part_attributes ⟨"r1", some 1, [], [], 0⟩) c ∧
      _resolve_or_create_part supaDB 100 ⟨"r1", some 1, [], [], 0⟩ onePartState [] =
        (.ok c.id, onePartState, [.findSimilarParts]) ∧
      ∀ c' ∈ onePartState.parts, c'.org_id = 100 →
        partScore "r1" (_extract_part_attributes ⟨"r1", some 1, [], [], 0⟩) c' ≤
        partScore "r1" (_extract_part_attributes ⟨"r1", some 1, [], [], 0⟩) c :=
  (C9_part_resolution_threshold onePartState 100 ⟨"r1", some 1, [], [], 0⟩).1
    ⟨⟨1, 100, "r1", []⟩, by simp [onePartState], rfl,
      by with_unfolding_all decide⟩
